import Mathlib

/-!
Shallow embedding of the Domino4 game server (`server.js`).

The server is a single-threaded socket.io program; every inbound command is
handled atomically against one global mutable state consisting of the four
player slots (`jugadores`), the `gameState` object, and the per-socket
`jugadorName` field.  We model that state as `ServerState`, each socket event
handler as a pure function `ServerState → args → ServerState × List Event`,
and the server's use of `Math.random` (the shuffled deal pool) as an explicit
`pool : List Tile` parameter constrained, where a step relation needs it, to
be a permutation of the 28-tile double-six set.

JavaScript-specific behaviours are modelled as follows:
* `undefined`/`null` valued fields become `Option`; the handler guard
  `gameState.currentTurn !== player` is `true` when one side is `null` and the
  other `undefined`, which the model reproduces exactly;
* object keys `"Jugador 1"` … `"Jugador 4"` become `Fin 4`;
* `Array.prototype.sort` with the comparator `(a, b) => a.score - b.score`
  (a stable ascending sort) is modelled with the stable `List.insertionSort`;
* the two places where the handler would throw a `TypeError`
  (`hand.findIndex` on an undefined hand) and where `endRound` catches an
  exception from a failed `jugadoresInfo` lookup leave the state exactly as
  the mutations performed so far left it, which the model reproduces.
-/

namespace Domino4

/-- A domino tile `{left, right}` as produced by `generateDominoes` and sent
by clients (clients may send arbitrary face numbers; only tiles actually found
in a hand are ever placed). -/
structure Tile where
  left : Nat
  right : Nat
deriving DecidableEq, Repr

instance : Inhabited Tile := ⟨⟨0, 0⟩⟩

/-- The four fixed player slots `"Jugador 1"` … `"Jugador 4"`. -/
abbrev PlayerName := Fin 4

/-- JS strings that flow through the name logic are modelled as their
code-unit sequences so the embedding stays kernel-executable
(`String.trim`/`String.take` do not reduce in the kernel); JS `trim()` and
`substring(0, 12)` become the corresponding sequence operations. -/
abbrev Name := List Char

/-- `str.trim()`: strip whitespace from both ends. -/
def jsTrim (l : Name) : Name :=
  ((l.dropWhile Char.isWhitespace).reverse.dropWhile Char.isWhitespace).reverse

/-- `str.substring(0, 12)`. -/
def jsTake12 (l : Name) : Name := l.take 12

/-- One element of the global `jugadores` array. -/
structure Seat where
  assignedName : Option Name
  socketId : Option Nat
  isConnected : Bool
deriving DecidableEq, Repr

/-- `gameState.teamScores`. -/
structure TeamScores where
  teamA : Nat
  teamB : Nat
deriving DecidableEq, Repr

/-- `gameState.teams`. -/
structure Teams where
  teamA : List PlayerName
  teamB : List PlayerName
deriving DecidableEq, Repr

/-- The `gameState` object.  `jugadoresInfo` keeps the two fields the core
logic reads back (`name`, `displayName`); the other derived display fields are
never read by the server. -/
structure GameState where
  jugadoresInfo : List (PlayerName × Name)
  board : List Tile
  currentTurn : Option PlayerName
  gameInitialized : Bool
  leftEnd : Option Nat
  rightEnd : Option Nat
  teamScores : TeamScores
  isFirstMove : Bool
  teams : Teams
  hands : PlayerName → Option (List Tile)
  spinnerTile : Option Tile
  lastWinner : Option PlayerName
  isFirstRoundOfMatch : Bool
  readyPlayers : Finset PlayerName
  endRoundMessage : Option String
  matchNumber : Nat
  playerStats : PlayerName → Nat
  lastPlayedTile : Option Tile
  matchOver : Bool
  endMatchMessage : Option String
  seating : List PlayerName

/-- The per-socket state the server keeps: the `socket.jugadorName` field and
whether the socket is still connected (a disconnected socket can emit no
further commands). -/
structure Sock where
  jugadorName : Option PlayerName
  alive : Bool
deriving DecidableEq, Repr

/-- The whole mutable server state: the `jugadores` array, `gameState`, and
all sockets ever seen (indexed by socket id). -/
structure ServerState where
  jugadores : PlayerName → Seat
  game : GameState
  sockets : Nat → Option Sock

/-- Outbound socket.io emissions the handlers perform. -/
inductive Event where
  | playerHand (sockId : Nat) (hand : Option (List Tile))
  | playerAssigned (sockId : Nat) (seat : PlayerName)
  | gameError (sockId : Nat) (msg : String)
  | stateBroadcast
  | moveSuccess (sockId : Nat) (tile : Tile)
  | tilePlaced (seat : PlayerName) (tile : Tile)
  | playerPassed (seat : PlayerName)
  | playerWonHand (seat : PlayerName) (displayName : Name) (points : Nat)
  | gameRestarted (seat : PlayerName)
deriving DecidableEq, Repr

/-- The argument of `endRound`: `{ winner }` or `{ blocked: true }`. -/
inductive Outcome where
  | winner (p : PlayerName)
  | blocked
deriving DecidableEq, Repr

/-- `POINTS_TO_WIN_MATCH`. -/
def POINTS_TO_WIN_MATCH : Nat := 50

/-- The default slot name `"Jugador i"`. -/
def defaultName (p : PlayerName) : Name := ("Jugador " ++ toString (p.val + 1)).toList

/-- `createJugadores()`. -/
def createJugadores : PlayerName → Seat := fun _ =>
  { assignedName := none, socketId := none, isConnected := false }

/-- `createNewGameState()` (the per-player stats object holds `matchesWon: 0`
for each of the four fixed slots). -/
def createNewGameState : GameState where
  jugadoresInfo := []
  board := []
  currentTurn := none
  gameInitialized := false
  leftEnd := none
  rightEnd := none
  teamScores := ⟨0, 0⟩
  isFirstMove := true
  teams := ⟨[], []⟩
  hands := fun _ => none
  spinnerTile := none
  lastWinner := none
  isFirstRoundOfMatch := true
  readyPlayers := ∅
  endRoundMessage := none
  matchNumber := 1
  playerStats := fun _ => 0
  lastPlayedTile := none
  matchOver := false
  endMatchMessage := none
  seating := []

/-- The state at process start. -/
def initialServerState : ServerState where
  jugadores := createJugadores
  game := createNewGameState
  sockets := fun _ => none

/-- `generateDominoes()`: all pairs `(i, j)` with `0 ≤ i ≤ j ≤ 6`, in the
nested-loop order of the source. -/
def generateDominoes : List Tile :=
  (List.range 7).flatMap fun i => ((List.range 7).drop i).map fun j => Tile.mk i j

/-- `calculateHandValue(hand)`. -/
def calculateHandValue (hand : Option (List Tile)) : Nat :=
  match hand with
  | none => 0
  | some h => h.foldl (fun sum t => sum + t.left + t.right) 0

/-- The connected players, in slot order (`jugadores.filter(p => p.isConnected)`). -/
def connectedSeats (s : ServerState) : List PlayerName :=
  (List.finRange 4).filter fun p => (s.jugadores p).isConnected

/-- `jugadores.filter(p => p.isConnected).length`. -/
def connectedCount (s : ServerState) : Nat := (connectedSeats s).length

/-- The socket's `jugadorName` field (`undefined` before assignment). -/
def jugadorNameOf (s : ServerState) (k : Nat) : Option PlayerName :=
  match s.sockets k with
  | some sk => sk.jugadorName
  | none => none

/-- `hasValidMove(playerName)`. -/
def hasValidMove (s : ServerState) (p : PlayerName) : Bool :=
  match s.game.hands p with
  | none => false
  | some hand =>
    if s.game.isFirstMove then
      if s.game.isFirstRoundOfMatch then
        hand.any fun t => t.left == 6 && t.right == 6
      else true
    else
      hand.any fun t =>
        some t.left == s.game.leftEnd || some t.right == s.game.leftEnd ||
        some t.left == s.game.rightEnd || some t.right == s.game.rightEnd

/-- `nextTurn()`: advance `currentTurn` through the seating order
(`(currentIndex + 1) % 4`). -/
def nextTurn (g : GameState) : GameState :=
  match g.currentTurn with
  | none => g
  | some ct =>
    if g.seating.isEmpty then g
    else
      match g.seating.findIdx? (fun q => q == ct) with
      | none => g
      | some currentIndex =>
        { g with currentTurn := g.seating.get? ((currentIndex + 1) % 4) }

/-- `p.assignedName || p.name` (the empty string is falsy in JS). -/
def displayNameOf (s : ServerState) (p : PlayerName) : Name :=
  match (s.jugadores p).assignedName with
  | some an => if an = [] then defaultName p else an
  | none => defaultName p

/-- `broadcastGameState()`: refresh the derived `jugadoresInfo` and emit the
sanitized snapshot (hand contents stripped) to everyone. -/
def broadcastGameState (s : ServerState) : ServerState × List Event :=
  ({ s with game := { s.game with
      jugadoresInfo := (List.finRange 4).map fun p => (p, displayNameOf s p) } },
   [Event.stateBroadcast])

/-- The team pairing computed in `initializeRound` from
`(matchNumber - 1) % 3`. -/
def teamsFor (matchNumber : Nat) : Teams :=
  let rotation := (matchNumber - 1) % 3
  if rotation = 0 then ⟨[0, 1], [2, 3]⟩
  else if rotation = 1 then ⟨[0, 2], [1, 3]⟩
  else ⟨[0, 3], [1, 2]⟩

/-- `[teamA[0], teamB[0], teamA[1], teamB[1]]` (both teams always have
exactly two members when this is computed). -/
def seatingFor (t : Teams) : List PlayerName :=
  t.teamA.take 1 ++ t.teamB.take 1 ++ (t.teamA.drop 1).take 1 ++ (t.teamB.drop 1).take 1

/-- The loop body of `dealHands()`: each connected player in slot order takes
the next 7 tiles of the shuffled pool (`dominoesPool.splice(0, 7)`) and is
privately sent its hand. -/
def dealLoop (jug : PlayerName → Seat) :
    List PlayerName → (PlayerName → Option (List Tile)) → List Tile →
    (PlayerName → Option (List Tile)) × List Event
  | [], hands, _ => (hands, [])
  | p :: rest, hands, pool =>
    let hand := pool.take 7
    let hands1 := Function.update hands p (some hand)
    let (hands2, evs) := dealLoop jug rest hands1 (pool.drop 7)
    (hands2,
      (match (jug p).socketId with
       | some k => [Event.playerHand k (some hand)]
       | none => []) ++ evs)

/-- `initializeRound()`, with the shuffled deal pool made explicit. -/
def initializeRound (s : ServerState) (pool : List Tile) : ServerState × List Event :=
  let g0 := { s.game with
    gameInitialized := true, isFirstMove := true, board := [],
    leftEnd := none, rightEnd := none, spinnerTile := none,
    endRoundMessage := none, lastPlayedTile := none,
    matchOver := false, endMatchMessage := none }
  let teams := teamsFor g0.matchNumber
  let g1 := { g0 with teams := teams, seating := seatingFor teams }
  let connected := connectedSeats s
  let (hands1, dealEvs) := dealLoop s.jugadores connected g1.hands pool
  let g2 := { g1 with hands := hands1 }
  let currentTurn :=
    if g2.isFirstRoundOfMatch then
      some ((connected.find? fun p =>
        match hands1 p with
        | some h => h.any fun t => t.left == 6 && t.right == 6
        | none => false).getD 0)
    else
      match g2.lastWinner with
      | some lw =>
        if connected.contains lw then some lw else some (g2.seating.head?.getD 0)
      | none => some (g2.seating.head?.getD 0)
  let (s2, ev) := broadcastGameState { s with game := { g2 with currentTurn := currentTurn } }
  (s2, dealEvs ++ ev)

/-- Team pip total: `team.reduce((total, p) => total + calculateHandValue(hands[p]), 0)`. -/
def teamPips (g : GameState) (team : List PlayerName) : Nat :=
  team.foldl (fun total p => total + calculateHandValue (g.hands p)) 0

/-- The ascending stable sort `.sort((a, b) => a.score - b.score)` on
`(player, score)` pairs. -/
def sortByScore (l : List (PlayerName × Nat)) : List (PlayerName × Nat) :=
  l.insertionSort fun a b => a.2 ≤ b.2

/-- The same sort when disconnected players score `Infinity`. -/
def sortByScoreT (l : List (PlayerName × WithTop Nat)) : List (PlayerName × WithTop Nat) :=
  l.insertionSort fun a b => a.2 ≤ b.2

/-- The `try` block of `endRound(outcome)`: score the round and pick
`lastWinner`.  Returns the updated `gameState`, the emissions, and the
`endMessage` text.  In the winner case the source reads
`jugadoresInfo.find(p => p.name === winner).displayName` after updating the
scores; if that lookup fails the thrown `TypeError` is caught, leaving the
mutations already made in place and `endMessage` at its default. -/
def endRoundTry (s : ServerState) (outcome : Outcome) : GameState × List Event × String :=
  let g := s.game
  match outcome with
  | .winner w =>
    let g1 := { g with lastWinner := some w }
    let winnerIsA := g1.teams.teamA.contains w
    let loserTeam := if winnerIsA then g1.teams.teamB else g1.teams.teamA
    let points := teamPips g1 loserTeam
    let g2 :=
      if winnerIsA then
        { g1 with teamScores := { g1.teamScores with teamA := g1.teamScores.teamA + points } }
      else
        { g1 with teamScores := { g1.teamScores with teamB := g1.teamScores.teamB + points } }
    match g2.jugadoresInfo.find? (fun pr => pr.1 == w) with
    | none => (g2, [], "Round Over!")
    | some info =>
      (g2, [Event.playerWonHand w info.2 points],
        String.mk info.2 ++ " domino! Equipo " ++ (if winnerIsA then "A" else "B")
          ++ " gana " ++ toString points ++ " puntos!")
  | .blocked =>
    let scoreA := teamPips g g.teams.teamA
    let scoreB := teamPips g g.teams.teamB
    if scoreA ≠ scoreB then
      let winnerIsA := scoreA < scoreB
      let points := if scoreA < scoreB then scoreB else scoreA
      let g1 :=
        if winnerIsA then
          { g with teamScores := { g.teamScores with teamA := g.teamScores.teamA + points } }
        else
          { g with teamScores := { g.teamScores with teamB := g.teamScores.teamB + points } }
      let allPipCounts := (connectedSeats s).map fun p => (p, calculateHandValue (g.hands p))
      let sorted := sortByScore allPipCounts
      let g2 :=
        match sorted.head? with
        | some pr => { g1 with lastWinner := some pr.1 }
        | none => g1
      (g2, [],
        "Juego Cerrado! Equipo " ++ (if winnerIsA then "A" else "B")
          ++ " gana con menos puntos, gana " ++ toString points ++ " puntos.")
    else
      let allPipCounts := (List.finRange 4).map fun p =>
        (p, if (s.jugadores p).isConnected
            then (calculateHandValue (g.hands p) : WithTop Nat) else ⊤)
      let sorted := sortByScoreT allPipCounts
      let g1 :=
        match sorted.head? with
        | some pr => { g with lastWinner := some pr.1 }
        | none => g
      (g1, [], "Juego Cerrado! Empata nadie gana.")

/-- `endRound(outcome)`. -/
def endRound (s : ServerState) (outcome : Outcome) : ServerState × List Event :=
  let (g, evs, endMessage) := endRoundTry s outcome
  let scoreA := g.teamScores.teamA
  let scoreB := g.teamScores.teamB
  if scoreA ≥ POINTS_TO_WIN_MATCH ∨ scoreB ≥ POINTS_TO_WIN_MATCH then
    let winnerIsA := scoreA > scoreB
    let winTeam := if winnerIsA then g.teams.teamA else g.teams.teamB
    let stats1 := fun p => if winTeam.contains p then g.playerStats p + 1 else g.playerStats p
    let matchOverMessage :=
      "\n" ++ (if winnerIsA then "Team A" else "Team B") ++ " gana el match "
        ++ toString scoreA ++ " a " ++ toString scoreB ++ "!"
    let g1 := { g with
      playerStats := stats1,
      matchOver := true,
      endMatchMessage := some matchOverMessage,
      endRoundMessage := some (endMessage ++ matchOverMessage),
      gameInitialized := false,
      readyPlayers := ∅ }
    let (s1, ev) := broadcastGameState { s with game := g1 }
    (s1, evs ++ ev)
  else
    let g1 := { g with
      isFirstRoundOfMatch := false,
      matchOver := false,
      endMatchMessage := none,
      gameInitialized := false,
      endRoundMessage := some endMessage,
      readyPlayers := ∅ }
    let (s1, ev) := broadcastGameState { s with game := g1 }
    (s1, evs ++ ev)

/-- `checkRoundEnd()`. -/
def checkRoundEnd (s : ServerState) : ServerState × List Event :=
  if s.game.gameInitialized = false then (s, [])
  else
    let connected := connectedSeats s
    match connected.find? (fun p =>
        match s.game.hands p with
        | some h => h.isEmpty
        | none => false) with
    | some w => endRound s (.winner w)
    | none =>
      if connected.any (fun p => hasValidMove s p) then broadcastGameState s
      else endRound s .blocked

/-- The `findIndex` predicate of the `placeTile` handler: the submitted tile
equals the hand tile in either orientation. -/
def tileMatches (t tile : Tile) : Bool :=
  (t.left == tile.left && t.right == tile.right) ||
  (t.left == tile.right && t.right == tile.left)

/-- The tail of the `placeTile` handler once `validMove` is true: splice the
tile out of the hand, record `lastPlayedTile`, emit the private hand update
and the acceptance/broadcast events, advance the turn, and check for round
end.  `s` already carries the board/end mutations of the accepted branch. -/
def finishValidMove (s : ServerState) (k : Nat) (p : PlayerName) (tileIndex : Nat)
    (played : Tile) : ServerState × List Event :=
  let newHand := ((s.game.hands p).getD []).eraseIdx tileIndex
  let g1 := { s.game with
    hands := Function.update s.game.hands p (some newHand),
    lastPlayedTile := some played }
  let s1 := { s with game := nextTurn g1 }
  let (s2, evs2) := checkRoundEnd s1
  (s2, [Event.playerHand k (some newHand), Event.moveSuccess k played,
        Event.tilePlaced p played] ++ evs2)

/-- The `socket.on('placeTile', …)` handler. -/
def handlePlaceTile (s : ServerState) (k : Nat) (tile : Tile) (position : String) :
    ServerState × List Event :=
  let player := jugadorNameOf s k
  let turnOk :=
    match s.game.currentTurn, player with
    | some a, some b => a == b
    | _, _ => false
  if !s.game.gameInitialized || !turnOk then (s, [])
  else
    match player with
    | none => (s, [])
    | some p =>
      match s.game.hands p with
      | none => (s, [])
      | some hand =>
        match hand.findIdx? (fun t => tileMatches t tile) with
        | none => (s, [])
        | some tileIndex =>
          if s.game.isFirstMove then
            if s.game.isFirstRoundOfMatch && (tile.left != 6 || tile.right != 6) then
              (s, [Event.gameError k "First move must be 6|6!"])
            else
              let firstTile := hand.getD tileIndex default
              let g1 := { s.game with
                board := s.game.board ++ [firstTile],
                leftEnd := some firstTile.left,
                rightEnd := some firstTile.right,
                spinnerTile := some firstTile,
                isFirstMove := false }
              finishValidMove { s with game := g1 } k p tileIndex firstTile
          else
            let playedTile := hand.getD tileIndex default
            if position == "left" &&
                (some playedTile.left == s.game.leftEnd ||
                 some playedTile.right == s.game.leftEnd) then
              let oriented :=
                if some playedTile.right == s.game.leftEnd then playedTile
                else ⟨playedTile.right, playedTile.left⟩
              let g1 := { s.game with
                board := oriented :: s.game.board,
                leftEnd := some oriented.left }
              finishValidMove { s with game := g1 } k p tileIndex oriented
            else if position == "right" &&
                (some playedTile.left == s.game.rightEnd ||
                 some playedTile.right == s.game.rightEnd) then
              let oriented :=
                if some playedTile.left == s.game.rightEnd then playedTile
                else ⟨playedTile.right, playedTile.left⟩
              let g1 := { s.game with
                board := s.game.board ++ [oriented],
                rightEnd := some oriented.right }
              finishValidMove { s with game := g1 } k p tileIndex oriented
            else (s, [Event.gameError k "Invalid move!"])

/-- The `socket.on('passTurn', …)` handler. -/
def handlePassTurn (s : ServerState) (k : Nat) : ServerState × List Event :=
  match jugadorNameOf s k with
  | none => (s, [])
  | some p =>
    let turnOk :=
      match s.game.currentTurn with
      | some a => a == p
      | none => false
    if !s.game.gameInitialized || !turnOk || hasValidMove s p then (s, [])
    else
      let s1 := { s with game := nextTurn s.game }
      let (s2, evs) := checkRoundEnd s1
      (s2, Event.playerPassed p :: evs)

/-- `p.assignedName && p.assignedName.trim() === displayName`. -/
def nameTrimMatches (seat : Seat) (dn : Name) : Bool :=
  match seat.assignedName with
  | some an => !an.isEmpty && jsTrim an == dn
  | none => false

/-- The `socket.on('disconnect', …)` handler (also run when the server itself
calls `socket.disconnect()`): the socket goes dead; if a slot held it, the
slot is released and its ready flag is dropped.  When the last player leaves
while no round is running, everything is reset. -/
def disconnectCore (s : ServerState) (k : Nat) : ServerState × List Event :=
  let socks1 := Function.update s.sockets k ((s.sockets k).map fun sk => { sk with alive := false })
  let s0 := { s with sockets := socks1 }
  match (List.finRange 4).find? (fun p => (s0.jugadores p).socketId == some k) with
  | none => (s0, [])
  | some t =>
    let jug1 := Function.update s0.jugadores t
      { s0.jugadores t with socketId := none, isConnected := false }
    let s1 := { s0 with
      jugadores := jug1
      game := { s0.game with readyPlayers := s0.game.readyPlayers.erase t } }
    if connectedCount s1 < 4 ∧ s1.game.gameInitialized then broadcastGameState s1
    else if connectedCount s1 = 0 then
      ({ s1 with jugadores := createJugadores, game := createNewGameState }, [])
    else broadcastGameState s1

/-- The `socket.on('setPlayerName', …)` handler. -/
def handleSetPlayerName (s : ServerState) (k : Nat) (name : Name) (pool : List Tile) :
    ServerState × List Event :=
  let dn := jsTake12 (jsTrim name)
  if dn = [] then (s, [])
  else
    match (List.finRange 4).find? (fun p =>
        (s.jugadores p).isConnected && nameTrimMatches (s.jugadores p) dn) with
    | some _ =>
      (s, [Event.gameError k ("Name \"" ++ String.mk dn ++ "\" is already taken. Please choose another.")])
    | none =>
      match (List.finRange 4).find? (fun p =>
          nameTrimMatches (s.jugadores p) dn && !(s.jugadores p).isConnected &&
          s.game.gameInitialized) with
      | some r =>
        let jug1 := Function.update s.jugadores r
          { s.jugadores r with socketId := some k, isConnected := true }
        let socks1 := Function.update s.sockets k (some { jugadorName := some r, alive := true })
        let s1 := { s with jugadores := jug1, sockets := socks1 }
        let (s2, ev) := broadcastGameState s1
        (s2, [Event.playerAssigned k r, Event.playerHand k (s1.game.hands r)] ++ ev)
      | none =>
        match (List.finRange 4).find? (fun p => !(s.jugadores p).isConnected) with
        | some a =>
          let jug1 := Function.update s.jugadores a
            { s.jugadores a with
              socketId := some k
              isConnected := true
              assignedName := some dn }
          let socks1 := Function.update s.sockets k (some { jugadorName := some a, alive := true })
          let s1 := { s with jugadores := jug1, sockets := socks1 }
          if connectedCount s1 = 4 ∧ s1.game.gameInitialized = false ∧
              s1.game.endRoundMessage = none ∧ s1.game.matchOver = false then
            let (s2, evs) := initializeRound s1 pool
            (s2, Event.playerAssigned k a :: evs)
          else
            let (s2, ev) := broadcastGameState s1
            (s2, Event.playerAssigned k a :: ev)
        | none =>
          let (s1, evs) := disconnectCore s k
          (s1, Event.gameError k "Game is full." :: evs)

/-- The `socket.on('playerReadyForNewRound', …)` handler. -/
def handleReady (s : ServerState) (k : Nat) (pool : List Tile) : ServerState × List Event :=
  match jugadorNameOf s k with
  | none => (s, [])
  | some p =>
    let s1 := { s with game := { s.game with readyPlayers := insert p s.game.readyPlayers } }
    let (s2, ev1) := broadcastGameState s1
    if s2.game.readyPlayers.card = connectedCount s2 ∧ connectedCount s2 = 4 then
      let s3 :=
        if s2.game.matchOver then
          { s2 with game := { createNewGameState with
              playerStats := s2.game.playerStats,
              matchNumber := s2.game.matchNumber + 1,
              lastWinner := s2.game.lastWinner,
              isFirstRoundOfMatch := true } }
        else s2
      let s4 := { s3 with game := { s3.game with readyPlayers := ∅ } }
      let (s5, evs) := initializeRound s4 pool
      (s5, ev1 ++ evs)
    else (s2, ev1)

/-- The `socket.on('restartGame', …)` handler (modelled with the delayed
`initializeRound` of the source performed in the same atomic step). -/
def handleRestart (s : ServerState) (k : Nat) (pool : List Tile) : ServerState × List Event :=
  match (List.finRange 4).find? (fun p => (s.jugadores p).socketId == some k) with
  | none => (s, [])
  | some player =>
    let count := connectedCount s
    let s1 := { s with game := createNewGameState }
    let (s2, ev) := broadcastGameState s1
    if count = 4 then
      let (s3, evs2) := initializeRound s2 pool
      (s3, Event.gameRestarted player :: (ev ++ evs2))
    else (s2, Event.gameRestarted player :: ev)

/-- One inbound command, with the deal pool a command can consume made
explicit (`chatMessage`/`voiceMessage` are pure relays and touch no state). -/
inductive Cmd where
  | connect (k : Nat)
  | setPlayerName (k : Nat) (name : Name) (pool : List Tile)
  | placeTile (k : Nat) (tile : Tile) (position : String)
  | passTurn (k : Nat)
  | ready (k : Nat) (pool : List Tile)
  | restart (k : Nat) (pool : List Tile)
  | disconnect (k : Nat)

/-- Whether the socket `k` is currently connected. -/
def sockAlive (s : ServerState) (k : Nat) : Bool :=
  match s.sockets k with
  | some sk => sk.alive
  | none => false

/-- Environment conditions for a command to occur: commands come only from
live sockets (socket ids are fresh), and every shuffled pool is a permutation
of the full 28-tile set. -/
def cmdOk (s : ServerState) : Cmd → Prop
  | .connect k => s.sockets k = none
  | .setPlayerName k _ pool => sockAlive s k = true ∧ pool.Perm generateDominoes
  | .placeTile k _ _ => sockAlive s k = true
  | .passTurn k => sockAlive s k = true
  | .ready k pool => sockAlive s k = true ∧ pool.Perm generateDominoes
  | .restart k pool => sockAlive s k = true ∧ pool.Perm generateDominoes
  | .disconnect k => sockAlive s k = true

/-- Dispatch one command to its handler. -/
def applyCmd (s : ServerState) : Cmd → ServerState × List Event
  | .connect k =>
    ({ s with sockets := Function.update s.sockets k (some { jugadorName := none, alive := true }) }, [])
  | .setPlayerName k name pool => handleSetPlayerName s k name pool
  | .placeTile k tile position => handlePlaceTile s k tile position
  | .passTurn k => handlePassTurn s k
  | .ready k pool => handleReady s k pool
  | .restart k pool => handleRestart s k pool
  | .disconnect k => disconnectCore s k

/-- The states the server can actually be in. -/
inductive Reachable : ServerState → Prop
  | init : Reachable initialServerState
  | step {s : ServerState} {c : Cmd} :
      Reachable s → cmdOk s c → Reachable (applyCmd s c).1

/-- The number of tiles in a (possibly undealt) hand. -/
def handLen (s : ServerState) (p : PlayerName) : Nat :=
  ((s.game.hands p).getD []).length

/-- The sum of the four seats' hand lengths. -/
def totalHandLen (s : ServerState) : Nat :=
  ∑ p : PlayerName, handLen s p



/-! ### Basic facts about the tile set and helper functions -/

theorem generateDominoes_length : generateDominoes.length = 28 := by decide

theorem connectedSeats_eq_univ {s : ServerState} (h : connectedCount s = 4) :
    connectedSeats s = List.finRange 4 := by
  have hsub : List.Sublist (connectedSeats s) (List.finRange 4) := List.filter_sublist _
  exact hsub.eq_of_length (by simpa [connectedCount, List.length_finRange] using h)

theorem connected_of_count_zero {s : ServerState} (h : connectedCount s = 0) :
    ∀ p : PlayerName, (s.jugadores p).isConnected = false := by
  intro p
  have h0 : connectedSeats s = [] := by
    have := List.length_eq_zero.1 h
    simpa [connectedCount] using this
  have := (List.filter_eq_nil_iff.1 h0) p (by simp)
  simpa using this

theorem sum_handLen_update (hands : PlayerName → Option (List Tile)) (p : PlayerName)
    (v : Option (List Tile)) :
    (∑ q : PlayerName, ((Function.update hands p v q).getD []).length)
      + ((hands p).getD []).length
    = (∑ q : PlayerName, ((hands q).getD []).length) + (v.getD []).length := by
  have h1 : (fun q => ((Function.update hands p v q).getD []).length)
      = Function.update (fun q => ((hands q).getD []).length) p (v.getD []).length := by
    funext q
    by_cases hq : q = p
    · subst hq; simp
    · simp [Function.update, hq]
  rw [h1, Finset.sum_update_of_mem (Finset.mem_univ p),
    Finset.sum_eq_sum_diff_singleton_add (Finset.mem_univ p)
      (fun q => ((hands q).getD []).length)]
  omega

/-! ### The inductive invariant of the reachable states -/

/-- The inductive invariant maintained by every command handler.  `sockSeat`
ties live identified sockets to their (connected) slots; the remaining
components are the board/hand invariants of an active round plus the
`readyPlayers ⊆ connected` property. -/
structure Inv (s : ServerState) : Prop where
  sockSeat : ∀ k sk p, s.sockets k = some sk → sk.alive = true → sk.jugadorName = some p →
      (s.jugadores p).socketId = some k ∧ (s.jugadores p).isConnected = true
  handsSome : s.game.gameInitialized = true → ∀ p, (s.game.hands p).isSome = true
  tileCount : s.game.gameInitialized = true → totalHandLen s + s.game.board.length = 28
  ends : s.game.board ≠ [] →
      s.game.leftEnd = s.game.board.head?.map Tile.left ∧
      s.game.rightEnd = s.game.board.getLast?.map Tile.right
  boardNonempty : s.game.gameInitialized = true → s.game.isFirstMove = false →
      s.game.board ≠ []
  firstMoveEmpty : s.game.gameInitialized = true → s.game.isFirstMove = true →
      s.game.board = []
  noEmptyHand : s.game.gameInitialized = true → ∀ p, s.game.hands p ≠ some []
  infoFull : s.game.gameInitialized = true →
      s.game.jugadoresInfo.map Prod.fst = List.finRange 4
  readyConn : ∀ p ∈ s.game.readyPlayers, (s.jugadores p).isConnected = true

/-- The weakening of `Inv` that holds in the middle of the `placeTile`
handler, after a tile moved from hand to board but before `checkRoundEnd`
ran: a connected seat's hand may just have become empty. -/
structure InvMid (s : ServerState) : Prop where
  sockSeat : ∀ k sk p, s.sockets k = some sk → sk.alive = true → sk.jugadorName = some p →
      (s.jugadores p).socketId = some k ∧ (s.jugadores p).isConnected = true
  handsSome : s.game.gameInitialized = true → ∀ p, (s.game.hands p).isSome = true
  tileCount : s.game.gameInitialized = true → totalHandLen s + s.game.board.length = 28
  ends : s.game.board ≠ [] →
      s.game.leftEnd = s.game.board.head?.map Tile.left ∧
      s.game.rightEnd = s.game.board.getLast?.map Tile.right
  boardNonempty : s.game.gameInitialized = true → s.game.isFirstMove = false →
      s.game.board ≠ []
  firstMoveEmpty : s.game.gameInitialized = true → s.game.isFirstMove = true →
      s.game.board = []
  noEmptyHandDisc : s.game.gameInitialized = true →
      ∀ p, (s.jugadores p).isConnected = false → s.game.hands p ≠ some []
  infoFull : s.game.gameInitialized = true →
      s.game.jugadoresInfo.map Prod.fst = List.finRange 4
  readyConn : ∀ p ∈ s.game.readyPlayers, (s.jugadores p).isConnected = true

theorem Inv.toMid {s : ServerState} (h : Inv s) : InvMid s where
  sockSeat := h.sockSeat
  handsSome := h.handsSome
  tileCount := h.tileCount
  ends := h.ends
  boardNonempty := h.boardNonempty
  firstMoveEmpty := h.firstMoveEmpty
  noEmptyHandDisc := fun hi p _ => h.noEmptyHand hi p
  infoFull := h.infoFull
  readyConn := h.readyConn

theorem inv_initial : Inv initialServerState := by
  constructor <;>
    simp [initialServerState, createNewGameState, createJugadores]

/-! ### The settlement path halts play -/

theorem endRoundTry_shape (s : ServerState) (o : Outcome) :
    ∃ lw ts, (endRoundTry s o).1 = { s.game with lastWinner := lw, teamScores := ts } := by
  cases o <;> simp only [endRoundTry] <;> repeat' split
  all_goals exact ⟨_, _, rfl⟩

theorem endRound_shape (s : ServerState) (o : Outcome) :
    ∃ g : GameState,
      (endRound s o).1 = { s with game := g } ∧
      g.gameInitialized = false ∧
      g.board = s.game.board ∧
      g.leftEnd = s.game.leftEnd ∧
      g.rightEnd = s.game.rightEnd ∧
      g.hands = s.game.hands ∧
      g.readyPlayers = ∅ ∧
      g.spinnerTile = s.game.spinnerTile ∧
      g.isFirstMove = s.game.isFirstMove := by
  obtain ⟨lw, ts, h⟩ := endRoundTry_shape s o
  simp only [endRound, h, broadcastGameState]
  split <;> exact ⟨_, rfl, rfl, rfl, rfl, rfl, rfl, rfl, rfl, rfl⟩

theorem Inv_endRound {s : ServerState} (hs : InvMid s) (o : Outcome) :
    Inv (endRound s o).1 := by
  obtain ⟨g, hg, hinit, hboard, hle, hre, _, hready, _, _⟩ := endRound_shape s o
  rw [hg]
  constructor
  · exact hs.sockSeat
  · intro h; rw [hinit] at h; exact absurd h (by simp)
  · intro h; rw [hinit] at h; exact absurd h (by simp)
  · intro hb
    rw [show ({ s with game := g } : ServerState).game = g from rfl] at hb ⊢
    rw [hboard] at hb ⊢
    rw [hle, hre]
    exact hs.ends hb
  · intro h; rw [hinit] at h; exact absurd h (by simp)
  · intro h; rw [hinit] at h; exact absurd h (by simp)
  · intro h; rw [hinit] at h; exact absurd h (by simp)
  · intro h; rw [hinit] at h; exact absurd h (by simp)
  · intro p hp
    rw [show ({ s with game := g } : ServerState).game = g from rfl] at hp
    rw [hready] at hp
    exact absurd hp (by simp)

theorem broadcast_shape (s : ServerState) :
    (broadcastGameState s).1 = { s with game := { s.game with
      jugadoresInfo := (List.finRange 4).map fun p => (p, displayNameOf s p) } } := rfl

theorem Inv_broadcast {s : ServerState} (hs : Inv s) : Inv (broadcastGameState s).1 := by
  rw [broadcast_shape]
  constructor
  · exact hs.sockSeat
  · exact hs.handsSome
  · intro h
    have := hs.tileCount h
    simpa [totalHandLen, handLen] using this
  · exact hs.ends
  · exact hs.boardNonempty
  · exact hs.firstMoveEmpty
  · exact hs.noEmptyHand
  · intro _; simp [Function.comp_def]
  · exact hs.readyConn

theorem InvMid_broadcast_full {s : ServerState} (hs : InvMid s)
    (hne : s.game.gameInitialized = true →
      ∀ p, (s.jugadores p).isConnected = true → s.game.hands p ≠ some []) :
    Inv (broadcastGameState s).1 := by
  rw [broadcast_shape]
  constructor
  · exact hs.sockSeat
  · exact hs.handsSome
  · intro h
    have := hs.tileCount h
    simpa [totalHandLen, handLen] using this
  · exact hs.ends
  · exact hs.boardNonempty
  · exact hs.firstMoveEmpty
  · intro h p
    by_cases hc : (s.jugadores p).isConnected = true
    · exact hne h p hc
    · exact hs.noEmptyHandDisc h p (by simpa using hc)
  · intro _; simp [Function.comp_def]
  · exact hs.readyConn

theorem Inv_checkRoundEnd {s : ServerState} (hs : InvMid s) : Inv (checkRoundEnd s).1 := by
  unfold checkRoundEnd
  split
  · rename_i hni
    constructor
    · exact hs.sockSeat
    · intro h; rw [hni] at h; exact absurd h (by simp)
    · intro h; rw [hni] at h; exact absurd h (by simp)
    · exact hs.ends
    · intro h; rw [hni] at h; exact absurd h (by simp)
    · intro h; rw [hni] at h; exact absurd h (by simp)
    · intro h; rw [hni] at h; exact absurd h (by simp)
    · intro h; rw [hni] at h; exact absurd h (by simp)
    · exact hs.readyConn
  · dsimp only
    split
    · exact Inv_endRound hs _
    · rename_i hfind
      split
      · apply InvMid_broadcast_full hs
        intro _ p hc hempty
        have hmem : p ∈ connectedSeats s := by
          simp [connectedSeats, hc]
        have := List.find?_eq_none.1 hfind p hmem
        rw [hempty] at this
        simp at this
      · exact Inv_endRound hs _

/-! ### A fresh round re-establishes the invariant -/

theorem dealLoop_hands (jug : PlayerName → Seat) (hands : PlayerName → Option (List Tile))
    (pool : List Tile) :
    (dealLoop jug [0, 1, 2, 3] hands pool).1 =
      Function.update (Function.update (Function.update (Function.update hands
        0 (some (pool.take 7)))
        1 (some ((pool.drop 7).take 7)))
        2 (some (((pool.drop 7).drop 7).take 7)))
        3 (some ((((pool.drop 7).drop 7).drop 7).take 7)) := by
  simp [dealLoop]

theorem Inv_broadcast_parts {s : ServerState}
    (h1 : ∀ k sk p, s.sockets k = some sk → sk.alive = true → sk.jugadorName = some p →
      (s.jugadores p).socketId = some k ∧ (s.jugadores p).isConnected = true)
    (h2 : s.game.gameInitialized = true → ∀ p, (s.game.hands p).isSome = true)
    (h3 : s.game.gameInitialized = true → totalHandLen s + s.game.board.length = 28)
    (h4 : s.game.board ≠ [] →
      s.game.leftEnd = s.game.board.head?.map Tile.left ∧
      s.game.rightEnd = s.game.board.getLast?.map Tile.right)
    (h5 : s.game.gameInitialized = true → s.game.isFirstMove = false → s.game.board ≠ [])
    (h6 : s.game.gameInitialized = true → s.game.isFirstMove = true → s.game.board = [])
    (h7 : s.game.gameInitialized = true → ∀ p, s.game.hands p ≠ some [])
    (h9 : ∀ p ∈ s.game.readyPlayers, (s.jugadores p).isConnected = true) :
    Inv (broadcastGameState s).1 := by
  rw [broadcast_shape]
  constructor
  · exact h1
  · exact h2
  · intro h
    have := h3 h
    simpa [totalHandLen, handLen] using this
  · exact h4
  · exact h5
  · exact h6
  · exact h7
  · intro _; simp [Function.comp_def]
  · exact h9

theorem Inv_initializeRound {s : ServerState} {pool : List Tile}
    (hc : connectedCount s = 4) (hp : pool.Perm generateDominoes)
    (hss : ∀ k sk p, s.sockets k = some sk → sk.alive = true → sk.jugadorName = some p →
      (s.jugadores p).socketId = some k ∧ (s.jugadores p).isConnected = true)
    (hrc : ∀ p ∈ s.game.readyPlayers, (s.jugadores p).isConnected = true) :
    Inv (initializeRound s pool).1 := by
  have hpl : pool.length = 28 := by rw [hp.length_eq, generateDominoes_length]
  have hcs : connectedSeats s = [0, 1, 2, 3] := by
    rw [connectedSeats_eq_univ hc]; decide
  unfold initializeRound
  rw [hcs]
  dsimp only
  rw [dealLoop_hands]
  apply Inv_broadcast_parts
  · exact hss
  · intro _ p
    fin_cases p <;> simp [Function.update]
  · intro _
    simp only [totalHandLen, handLen, Fin.sum_univ_four]
    simp [Function.update, hpl]
  · intro hb; exact absurd rfl hb
  · intro _ hf; exact absurd hf (by simp)
  · intro _ _; rfl
  · intro _ p
    fin_cases p <;> simp [Function.update, hpl] <;> (rintro rfl; simp at hpl)
  · exact hrc

/-! ### Accepted placements preserve the invariant -/

theorem findIdx?_lt {α} (l : List α) (p : α → Bool) (i : Nat) (h : l.findIdx? p = some i) :
    i < l.length := by
  rw [List.findIdx?_eq_guard_findIdx_lt] at h
  by_cases hlt : l.findIdx p < l.length
  · simp [hlt] at h; omega
  · simp [hlt] at h

theorem findIdx?_getD {α} [Inhabited α] (l : List α) (p : α → Bool) (i : Nat)
    (h : l.findIdx? p = some i) : p (l.getD i default) = true := by
  have hi := findIdx?_lt l p i h
  rw [List.findIdx?_eq_guard_findIdx_lt] at h
  by_cases hlt : l.findIdx p < l.length
  · simp [hlt] at h
    subst h
    have := List.findIdx_getElem (w := hlt)
    simpa [List.getD, List.getElem?_eq_getElem hlt] using this
  · simp [hlt] at h

theorem getLast?_cons_of_ne_nil {α} (x : α) (l : List α) (h : l ≠ []) :
    (x :: l).getLast? = l.getLast? := by
  cases l with
  | nil => exact absurd rfl h
  | cons b bs => simp [List.getLast?_cons_cons]

theorem nextTurn_shape (g : GameState) : ∃ ct, nextTurn g = { g with currentTurn := ct } := by
  unfold nextTurn
  repeat' split
  all_goals exact ⟨_, rfl⟩

theorem Inv_finishValidMove {s0 : ServerState} {g1 : GameState} (k : Nat) {p : PlayerName}
    {i : Nat} (played : Tile) {hand : List Tile}
    (hs : Inv s0)
    (hhand : s0.game.hands p = some hand)
    (hi : i < hand.length)
    (hpconn : (s0.jugadores p).isConnected = true)
    (hinit : s0.game.gameInitialized = true)
    (hg1 : g1.gameInitialized = true)
    (hg1hands : g1.hands = s0.game.hands)
    (hg1ready : g1.readyPlayers = s0.game.readyPlayers)
    (hg1info : g1.jugadoresInfo = s0.game.jugadoresInfo)
    (hg1blen : g1.board.length = s0.game.board.length + 1)
    (hg1bne : g1.board ≠ [])
    (hg1fm : g1.isFirstMove = false)
    (hg1ends : g1.leftEnd = g1.board.head?.map Tile.left ∧
               g1.rightEnd = g1.board.getLast?.map Tile.right) :
    Inv (finishValidMove { s0 with game := g1 } k p i played).1 := by
  unfold finishValidMove
  dsimp only
  obtain ⟨ct, hct⟩ := nextTurn_shape { g1 with
    hands := Function.update g1.hands p (some (((g1.hands p).getD []).eraseIdx i)),
    lastPlayedTile := some played }
  rw [hct]
  apply Inv_checkRoundEnd
  constructor
  · exact hs.sockSeat
  · intro _ q
    by_cases hq : q = p
    · subst hq; simp [Function.update]
    · simp [Function.update, hq, hg1hands]
      exact hs.handsSome hinit q
  · intro _
    have hsum := sum_handLen_update g1.hands p (some (((g1.hands p).getD []).eraseIdx i))
    have hold := hs.tileCount hinit
    have hhl : ((g1.hands p).getD []).length = hand.length := by
      rw [hg1hands, hhand]; rfl
    have hnl : (((g1.hands p).getD []).eraseIdx i).length + 1 = hand.length := by
      rw [hg1hands, hhand]
      exact List.length_eraseIdx_add_one hi
    simp only [totalHandLen, handLen] at hold ⊢
    simp only [Option.getD_some] at hsum
    rw [hg1hands] at hsum hhl hnl ⊢
    rw [hg1blen]
    omega
  · intro _
    exact hg1ends
  · intro _ _
    exact hg1bne
  · intro _ hfm
    rw [hg1fm] at hfm
    exact absurd hfm (by simp)
  · intro _ q hqdisc
    have hq : q ≠ p := fun h => by rw [h, hpconn] at hqdisc; exact absurd hqdisc (by simp)
    simp only [Function.update, hq]
    simp [hq, hg1hands]
    exact hs.noEmptyHand hinit q
  · intro _
    rw [hg1info]
    exact hs.infoFull hinit
  · intro q hq
    rw [hg1ready] at hq
    exact hs.readyConn q hq

theorem Inv_placeTile {s : ServerState} (hs : Inv s) {k : Nat} (tile : Tile) (position : String)
    (halive : sockAlive s k = true) :
    Inv (handlePlaceTile s k tile position).1 := by
  unfold handlePlaceTile
  dsimp only
  split
  · exact hs
  · rename_i hguard
    have hinit : s.game.gameInitialized = true := by
      by_cases h : s.game.gameInitialized = true
      · exact h
      · exfalso; apply hguard; simp [Bool.not_eq_true] at h; simp [h]
    split
    · exact hs
    · rename_i p hp
      have hpconn : (s.jugadores p).isConnected = true := by
        unfold jugadorNameOf at hp
        unfold sockAlive at halive
        cases hsk : s.sockets k with
        | none => rw [hsk] at hp; simp at hp
        | some sk =>
          rw [hsk] at hp halive
          exact (hs.sockSeat k sk p hsk halive hp).2
      split
      · exact hs
      · rename_i hand hhand
        split
        · exact hs
        · rename_i i hidx
          have hi : i < hand.length := findIdx?_lt _ _ _ hidx
          split
          · rename_i hfm
            split
            · exact hs
            · apply Inv_finishValidMove k _ hs hhand hi hpconn hinit
              · exact hinit
              · rfl
              · rfl
              · rfl
              · simp
              · simp
              · rfl
              · constructor
                · rw [hs.firstMoveEmpty hinit hfm]
                  rfl
                · rw [hs.firstMoveEmpty hinit hfm]
                  rfl
          · rename_i hfm
            have hfm' : s.game.isFirstMove = false := by
              simpa [Bool.not_eq_true] using hfm
            have hbne : s.game.board ≠ [] := hs.boardNonempty hinit hfm'
            have hends := hs.ends hbne
            split
            · rename_i hcondL
              apply Inv_finishValidMove k _ hs hhand hi hpconn hinit
              · exact hinit
              · rfl
              · rfl
              · rfl
              · simp
              · simp
              · exact hfm'
              · constructor
                · rfl
                · show s.game.rightEnd = _
                  rw [getLast?_cons_of_ne_nil _ _ hbne]
                  exact hends.2
            · split
              · rename_i hcondR
                apply Inv_finishValidMove k _ hs hhand hi hpconn hinit
                · exact hinit
                · rfl
                · rfl
                · rfl
                · simp
                · simp
                · exact hfm'
                · constructor
                  · show s.game.leftEnd = _
                    rw [List.head?_append_of_ne_nil _ hbne]
                    exact hends.1
                  · rw [List.getLast?_concat]
                    rfl
              · exact hs

/-! ### The remaining handlers preserve the invariant -/

theorem Inv_passTurn {s : ServerState} (hs : Inv s) (k : Nat) :
    Inv (handlePassTurn s k).1 := by
  unfold handlePassTurn
  dsimp only
  split
  · exact hs
  · rename_i p hp
    split
    · exact hs
    · obtain ⟨ct, hct⟩ := nextTurn_shape s.game
      rw [hct]
      apply Inv_checkRoundEnd
      exact {
        sockSeat := hs.sockSeat
        handsSome := hs.handsSome
        tileCount := hs.tileCount
        ends := hs.ends
        boardNonempty := hs.boardNonempty
        firstMoveEmpty := hs.firstMoveEmpty
        noEmptyHandDisc := fun hi q _ => hs.noEmptyHand hi q
        infoFull := hs.infoFull
        readyConn := hs.readyConn }

theorem Inv_connect {s : ServerState} (hs : Inv s) (k : Nat) :
    Inv { s with sockets := Function.update s.sockets k (some { jugadorName := none, alive := true }) } := by
  exact {
    sockSeat := by
      intro k' sk' p' hsk' halive' hjn'
      dsimp only at hsk' ⊢
      by_cases hk' : k' = k
      · rw [hk', Function.update_same] at hsk'
        injection hsk' with h
        rw [← h] at hjn'
        simp at hjn'
      · rw [Function.update_noteq hk'] at hsk'
        exact hs.sockSeat k' sk' p' hsk' halive' hjn'
    handsSome := hs.handsSome
    tileCount := hs.tileCount
    ends := hs.ends
    boardNonempty := hs.boardNonempty
    firstMoveEmpty := hs.firstMoveEmpty
    noEmptyHand := hs.noEmptyHand
    infoFull := hs.infoFull
    readyConn := hs.readyConn }

theorem Inv_dropSeat {s : ServerState} (hs : Inv s) (k : Nat) (t : PlayerName)
    (ht : (s.jugadores t).socketId = some k) :
    Inv { s with
      sockets := Function.update s.sockets k ((s.sockets k).map fun sk => { sk with alive := false })
      jugadores := Function.update s.jugadores t
        { s.jugadores t with socketId := none, isConnected := false }
      game := { s.game with readyPlayers := s.game.readyPlayers.erase t } } := by
  exact {
    sockSeat := by
      intro k' sk' p' hsk' halive' hjn'
      dsimp only at hsk' ⊢
      by_cases hk' : k' = k
      · rw [hk', Function.update_same] at hsk'
        cases hsk0 : s.sockets k with
        | none => rw [hsk0] at hsk'; simp at hsk'
        | some sk0 =>
          rw [hsk0] at hsk'
          simp at hsk'
          rw [← hsk'] at halive'
          simp at halive'
      · rw [Function.update_noteq hk'] at hsk'
        obtain ⟨hid, hconn⟩ := hs.sockSeat k' sk' p' hsk' halive' hjn'
        have hp't : p' ≠ t := by
          intro he
          rw [he, ht] at hid
          have hkk : k = k' := by injection hid
          exact hk' hkk.symm
        rw [Function.update_noteq hp't]
        exact ⟨hid, hconn⟩
    handsSome := hs.handsSome
    tileCount := hs.tileCount
    ends := hs.ends
    boardNonempty := hs.boardNonempty
    firstMoveEmpty := hs.firstMoveEmpty
    noEmptyHand := hs.noEmptyHand
    infoFull := hs.infoFull
    readyConn := by
      intro q hq
      dsimp only at hq ⊢
      simp only [Finset.mem_erase] at hq
      rw [Function.update_noteq hq.1]
      exact hs.readyConn q hq.2 }

theorem Inv_disconnect {s : ServerState} (hs : Inv s) (k : Nat) :
    Inv (disconnectCore s k).1 := by
  unfold disconnectCore
  dsimp only
  split
  · rename_i hfind
    exact {
      sockSeat := by
        intro k' sk' p' hsk' halive' hjn'
        dsimp only at hsk' ⊢
        by_cases hk' : k' = k
        · rw [hk', Function.update_same] at hsk'
          cases hsk0 : s.sockets k with
          | none => rw [hsk0] at hsk'; simp at hsk'
          | some sk0 =>
            rw [hsk0] at hsk'
            simp at hsk'
            rw [← hsk'] at halive'
            simp at halive'
        · rw [Function.update_noteq hk'] at hsk'
          exact hs.sockSeat k' sk' p' hsk' halive' hjn'
      handsSome := hs.handsSome
      tileCount := hs.tileCount
      ends := hs.ends
      boardNonempty := hs.boardNonempty
      firstMoveEmpty := hs.firstMoveEmpty
      noEmptyHand := hs.noEmptyHand
      infoFull := hs.infoFull
      readyConn := hs.readyConn }
  · rename_i t hft
    have ht : (s.jugadores t).socketId = some k := by
      have := List.find?_some hft
      exact eq_of_beq this
    have hdrop := Inv_dropSeat hs k t ht
    split
    · exact Inv_broadcast hdrop
    · split
      · rename_i hz
        constructor
        · intro k' sk' p' hsk' halive' hjn'
          dsimp only at hsk'
          exfalso
          by_cases hk' : k' = k
          · rw [hk', Function.update_same] at hsk'
            cases hsk0 : s.sockets k with
            | none => rw [hsk0] at hsk'; simp at hsk'
            | some sk0 =>
              rw [hsk0] at hsk'
              simp at hsk'
              rw [← hsk'] at halive'
              simp at halive'
          · rw [Function.update_noteq hk'] at hsk'
            obtain ⟨hid, hconn⟩ := hs.sockSeat k' sk' p' hsk' halive' hjn'
            have hp't : p' ≠ t := by
              intro he
              rw [he, ht] at hid
              have hkk : k = k' := by injection hid
              exact hk' hkk.symm
            have hzc := connected_of_count_zero hz p'
            dsimp only at hzc
            rw [Function.update_noteq hp't] at hzc
            rw [hconn] at hzc
            exact absurd hzc (by simp)
        · intro h; exact absurd h (by simp [createNewGameState])
        · intro h; exact absurd h (by simp [createNewGameState])
        · intro hb; exact absurd rfl hb
        · intro h; exact absurd h (by simp [createNewGameState])
        · intro _ _; rfl
        · intro h; exact absurd h (by simp [createNewGameState])
        · intro h; exact absurd h (by simp [createNewGameState])
        · intro q hq; exact absurd hq (by simp [createNewGameState])
      · exact Inv_broadcast hdrop

theorem Inv_bindSeat {s : ServerState} (hs : Inv s) (k : Nat) (r : PlayerName) (seat1 : Seat)
    (hrdisc : (s.jugadores r).isConnected = false)
    (hid : seat1.socketId = some k) (hconn : seat1.isConnected = true) :
    Inv { s with
      jugadores := Function.update s.jugadores r seat1
      sockets := Function.update s.sockets k (some { jugadorName := some r, alive := true }) } := by
  exact {
    sockSeat := by
      intro k' sk' p' hsk' halive' hjn'
      dsimp only at hsk' ⊢
      by_cases hk' : k' = k
      · rw [hk', Function.update_same] at hsk'
        injection hsk' with h
        rw [← h] at hjn'
        dsimp only at hjn'
        injection hjn' with h2
        rw [← h2, hk', Function.update_same]
        exact ⟨hid, hconn⟩
      · rw [Function.update_noteq hk'] at hsk'
        obtain ⟨hid', hconn'⟩ := hs.sockSeat k' sk' p' hsk' halive' hjn'
        have hp'r : p' ≠ r := by
          intro he
          rw [he] at hconn'
          rw [hconn'] at hrdisc
          exact absurd hrdisc (by simp)
        rw [Function.update_noteq hp'r]
        exact ⟨hid', hconn'⟩
    handsSome := hs.handsSome
    tileCount := hs.tileCount
    ends := hs.ends
    boardNonempty := hs.boardNonempty
    firstMoveEmpty := hs.firstMoveEmpty
    noEmptyHand := hs.noEmptyHand
    infoFull := hs.infoFull
    readyConn := by
      intro q hq
      dsimp only at hq ⊢
      by_cases hqr : q = r
      · rw [hqr, Function.update_same]
        exact hconn
      · rw [Function.update_noteq hqr]
        exact hs.readyConn q hq }

theorem Inv_setPlayerName {s : ServerState} (hs : Inv s) (k : Nat) (name : Name)
    {pool : List Tile} (hp : pool.Perm generateDominoes) :
    Inv (handleSetPlayerName s k name pool).1 := by
  unfold handleSetPlayerName
  dsimp only
  split
  · exact hs
  · split
    · exact hs
    · split
      · rename_i r hfr
        have hrdisc : (s.jugadores r).isConnected = false := by
          have := List.find?_some hfr
          simp only [Bool.and_eq_true, Bool.not_eq_true'] at this
          exact this.1.2
        exact Inv_broadcast (Inv_bindSeat hs k r _ hrdisc rfl rfl)
      · split
        · rename_i a hfa
          have hadisc : (s.jugadores a).isConnected = false := by
            have := List.find?_some hfa
            simpa using this
          have hbind := Inv_bindSeat hs k a
            { s.jugadores a with
              socketId := some k
              isConnected := true
              assignedName := some (jsTake12 (jsTrim name)) } hadisc rfl rfl
          split
          · rename_i hcond
            exact Inv_initializeRound hcond.1 hp hbind.sockSeat hbind.readyConn
          · exact Inv_broadcast hbind
        · exact Inv_disconnect hs k

theorem Inv_ready {s : ServerState} (hs : Inv s) {k : Nat} {pool : List Tile}
    (halive : sockAlive s k = true) (hp : pool.Perm generateDominoes) :
    Inv (handleReady s k pool).1 := by
  unfold handleReady
  dsimp only
  split
  · exact hs
  · rename_i p hjp
    have hpconn : (s.jugadores p).isConnected = true := by
      unfold jugadorNameOf at hjp
      unfold sockAlive at halive
      cases hsk : s.sockets k with
      | none => rw [hsk] at hjp; simp at hjp
      | some sk =>
        rw [hsk] at hjp halive
        exact (hs.sockSeat k sk p hsk halive hjp).2
    have hs1 : Inv { s with game := { s.game with
        readyPlayers := insert p s.game.readyPlayers } } := {
      sockSeat := hs.sockSeat
      handsSome := hs.handsSome
      tileCount := hs.tileCount
      ends := hs.ends
      boardNonempty := hs.boardNonempty
      firstMoveEmpty := hs.firstMoveEmpty
      noEmptyHand := hs.noEmptyHand
      infoFull := hs.infoFull
      readyConn := by
        intro q hq
        dsimp only at hq ⊢
        rcases Finset.mem_insert.1 hq with h | h
        · rw [h]; exact hpconn
        · exact hs.readyConn q h }
    have hs2 := Inv_broadcast hs1
    split
    · rename_i hgate
      split
      · exact Inv_initializeRound hgate.2 hp hs2.sockSeat (by intro q hq; simp at hq)
      · exact Inv_initializeRound hgate.2 hp hs2.sockSeat (by intro q hq; simp at hq)
    · exact hs2

theorem Inv_restart {s : ServerState} (hs : Inv s) {k : Nat} {pool : List Tile}
    (hp : pool.Perm generateDominoes) :
    Inv (handleRestart s k pool).1 := by
  unfold handleRestart
  dsimp only
  split
  · exact hs
  · rename_i player hfp
    have hs1 : Inv { s with game := createNewGameState } := {
      sockSeat := hs.sockSeat
      handsSome := by intro h; exact absurd h (by simp [createNewGameState])
      tileCount := by intro h; exact absurd h (by simp [createNewGameState])
      ends := by intro hb; exact absurd rfl hb
      boardNonempty := by intro h; exact absurd h (by simp [createNewGameState])
      firstMoveEmpty := by intro _ _; rfl
      noEmptyHand := by intro h; exact absurd h (by simp [createNewGameState])
      infoFull := by intro h; exact absurd h (by simp [createNewGameState])
      readyConn := by intro q hq; exact absurd hq (by simp [createNewGameState]) }
    have hs2 := Inv_broadcast hs1
    split
    · rename_i hcnt
      exact Inv_initializeRound hcnt hp hs2.sockSeat
        (by intro q hq; simp [broadcastGameState, createNewGameState] at hq)
    · exact hs2

/-- Every reachable server state satisfies the inductive invariant. -/
theorem reachable_inv {s : ServerState} (h : Reachable s) : Inv s := by
  induction h with
  | init => exact inv_initial
  | step hr hok ih =>
    rename_i s0 c
    cases c with
    | connect k =>
      exact Inv_connect ih k
    | setPlayerName k name pool =>
      obtain ⟨h1, h2⟩ := hok
      show Inv (handleSetPlayerName s0 k name pool).1
      exact Inv_setPlayerName ih k name h2
    | placeTile k tile position =>
      show Inv (handlePlaceTile s0 k tile position).1
      exact Inv_placeTile ih tile position hok
    | passTurn k =>
      exact Inv_passTurn ih k
    | ready k pool =>
      obtain ⟨h1, h2⟩ := hok
      show Inv (handleReady s0 k pool).1
      exact Inv_ready ih h1 h2
    | restart k pool =>
      obtain ⟨h1, h2⟩ := hok
      show Inv (handleRestart s0 k pool).1
      exact Inv_restart ih h2
    | disconnect k =>
      exact Inv_disconnect ih k

/-! ### Field bookkeeping through `checkRoundEnd` and `finishValidMove` -/

theorem checkRoundEnd_core_fields (s : ServerState) :
    (checkRoundEnd s).1.game.hands = s.game.hands ∧
    (checkRoundEnd s).1.game.board = s.game.board ∧
    (checkRoundEnd s).1.game.leftEnd = s.game.leftEnd ∧
    (checkRoundEnd s).1.game.rightEnd = s.game.rightEnd ∧
    (checkRoundEnd s).1.game.spinnerTile = s.game.spinnerTile ∧
    (checkRoundEnd s).1.game.isFirstMove = s.game.isFirstMove := by
  unfold checkRoundEnd
  split
  · exact ⟨rfl, rfl, rfl, rfl, rfl, rfl⟩
  · dsimp only
    split
    · rename_i w hw
      obtain ⟨g, hg, _, hb, hl, hr, hh, _, hsp, hfm⟩ := endRound_shape s (.winner w)
      rw [hg]
      exact ⟨hh, hb, hl, hr, hsp, hfm⟩
    · split
      · rw [broadcast_shape]
        exact ⟨rfl, rfl, rfl, rfl, rfl, rfl⟩
      · obtain ⟨g, hg, _, hb, hl, hr, hh, _, hsp, hfm⟩ := endRound_shape s .blocked
        rw [hg]
        exact ⟨hh, hb, hl, hr, hsp, hfm⟩

theorem finishValidMove_fields (s : ServerState) (k : Nat) (p : PlayerName) (i : Nat)
    (played : Tile) :
    (finishValidMove s k p i played).1.game.hands =
      Function.update s.game.hands p (some (((s.game.hands p).getD []).eraseIdx i)) ∧
    (finishValidMove s k p i played).1.game.board = s.game.board ∧
    (finishValidMove s k p i played).1.game.leftEnd = s.game.leftEnd ∧
    (finishValidMove s k p i played).1.game.rightEnd = s.game.rightEnd ∧
    (finishValidMove s k p i played).1.game.spinnerTile = s.game.spinnerTile := by
  unfold finishValidMove
  dsimp only
  obtain ⟨ct, hct⟩ := nextTurn_shape { s.game with
    hands := Function.update s.game.hands p (some (((s.game.hands p).getD []).eraseIdx i)),
    lastPlayedTile := some played }
  rw [hct]
  obtain ⟨hh, hb, hl, hr, hsp, _⟩ := checkRoundEnd_core_fields { s with game := { { s.game with
    hands := Function.update s.game.hands p (some (((s.game.hands p).getD []).eraseIdx i)),
    lastPlayedTile := some played } with currentTurn := ct } }
  rw [hh, hb, hl, hr, hsp]
  exact ⟨rfl, rfl, rfl, rfl, rfl⟩

/-- The acceptance condition of the `placeTile` handler: the exact conjunction
of guards under which the source reaches `validMove = true` (and therefore
mutates the game). -/
def placeValid (s : ServerState) (k : Nat) (tile : Tile) (position : String) : Bool :=
  match jugadorNameOf s k, s.game.currentTurn with
  | some p, some ct =>
    (ct == p && s.game.gameInitialized) &&
    (match s.game.hands p with
     | none => false
     | some hand =>
       match hand.findIdx? (fun t => tileMatches t tile) with
       | none => false
       | some tileIndex =>
         if s.game.isFirstMove then
           !(s.game.isFirstRoundOfMatch && (tile.left != 6 || tile.right != 6))
         else
           let playedTile := hand.getD tileIndex default
           (position == "left" &&
             (some playedTile.left == s.game.leftEnd ||
              some playedTile.right == s.game.leftEnd)) ||
           (position == "right" &&
             (some playedTile.left == s.game.rightEnd ||
              some playedTile.right == s.game.rightEnd)))
  | _, _ => false

/-! ### A concrete reachable round used as executable witness material -/

/-- Fold a command list over the state (used only to build concrete witness
states). -/
def runCmds (s : ServerState) (cs : List Cmd) : ServerState :=
  cs.foldl (fun s c => (applyCmd s c).1) s

/-- Four sockets connect and identify; the fourth identification auto-starts
the first round with the unshuffled pool. -/
def setupCmds : List Cmd :=
  [.connect 1, .setPlayerName 1 "Ana".toList generateDominoes,
   .connect 2, .setPlayerName 2 "Bob".toList generateDominoes,
   .connect 3, .setPlayerName 3 "Cia".toList generateDominoes,
   .connect 4, .setPlayerName 4 "Dan".toList generateDominoes]

/-- The state right after the auto-started first round is dealt. -/
def demoRoundState : ServerState := runCmds initialServerState setupCmds

theorem demoRoundState_reachable : Reachable demoRoundState := by
  have h0 : Reachable initialServerState := Reachable.init
  have h1 := Reachable.step (c := Cmd.connect 1) h0 (by show _ = none; decide)
  have h2 := Reachable.step (c := Cmd.setPlayerName 1 "Ana".toList generateDominoes) h1
    ⟨by decide, List.Perm.refl _⟩
  have h3 := Reachable.step (c := Cmd.connect 2) h2 (by show _ = none; decide)
  have h4 := Reachable.step (c := Cmd.setPlayerName 2 "Bob".toList generateDominoes) h3
    ⟨by decide, List.Perm.refl _⟩
  have h5 := Reachable.step (c := Cmd.connect 3) h4 (by show _ = none; decide)
  have h6 := Reachable.step (c := Cmd.setPlayerName 3 "Cia".toList generateDominoes) h5
    ⟨by decide, List.Perm.refl _⟩
  have h7 := Reachable.step (c := Cmd.connect 4) h6 (by show _ = none; decide)
  have h8 := Reachable.step (c := Cmd.setPlayerName 4 "Dan".toList generateDominoes) h7
    ⟨by decide, List.Perm.refl _⟩
  exact h8

/-- `demoRoundState` after seat 4 (who was dealt the double six) opens with it. -/
def demoPlacedState : ServerState :=
  (applyCmd demoRoundState (.placeTile 4 ⟨6, 6⟩ "left")).1

theorem demoPlacedState_reachable : Reachable demoPlacedState :=
  Reachable.step (c := Cmd.placeTile 4 ⟨6, 6⟩ "left") demoRoundState_reachable (by show sockAlive _ _ = true; decide)

/-! ### Claim theorems -/

/-- C1: While a round is active (`initializeRound` has run with all four
seats connected — equivalently `gameInitialized` is set — and no settlement
has occurred since, every settlement clearing the flag), every reachable
state satisfies `sum of hand lengths + board length = 28`; every accepted
`placeTile` moves exactly one tile from the acting seat's hand to the board
(that seat's hand shrinks by one, the board grows by one, all other hands
are untouched), and a `passTurn` never moves any tile (hands and board are
left exactly as they were, accepted or not). -/
theorem C1_round_tile_conservation {s : ServerState} (hreach : Reachable s) :
    (s.game.gameInitialized = true → totalHandLen s + s.game.board.length = 28) ∧
    (∀ k tile position p, jugadorNameOf s k = some p →
      placeValid s k tile position = true →
      handLen (handlePlaceTile s k tile position).1 p + 1 = handLen s p ∧
      (handlePlaceTile s k tile position).1.game.board.length = s.game.board.length + 1 ∧
      (∀ q, q ≠ p → (handlePlaceTile s k tile position).1.game.hands q = s.game.hands q)) ∧
    (∀ k, (handlePassTurn s k).1.game.hands = s.game.hands ∧
          (handlePassTurn s k).1.game.board = s.game.board) := by
  refine ⟨(reachable_inv hreach).tileCount, ?_, ?_⟩
  · intro k tile position p hjn hv
    unfold placeValid at hv
    rw [hjn] at hv
    cases hct : s.game.currentTurn with
    | none => rw [hct] at hv; simp at hv
    | some ct =>
      rw [hct] at hv
      dsimp only at hv
      have hA : (ct == p && s.game.gameInitialized) = true := by
        cases hA0 : (ct == p && s.game.gameInitialized) with
        | true => rfl
        | false => rw [hA0] at hv; simp at hv
      rw [hA, Bool.true_and] at hv
      have hA' := hA
      simp only [Bool.and_eq_true, beq_iff_eq] at hA'
      obtain ⟨hctp, hinit⟩ := hA'
      rw [hctp] at hct
      unfold handlePlaceTile
      rw [hjn, hct]
      dsimp only
      rw [hinit]
      simp only [beq_self_eq_true, Bool.not_true, Bool.or_self, Bool.false_eq_true,
        if_false]
      cases hhand : s.game.hands p with
      | none => rw [hhand] at hv; simp at hv
      | some hand =>
        rw [hhand] at hv
        dsimp only at hv ⊢
        cases hidx : hand.findIdx? (fun t => tileMatches t tile) with
        | none => rw [hidx] at hv; simp at hv
        | some i =>
          rw [hidx] at hv
          dsimp only at hv ⊢
          have hi : i < hand.length := findIdx?_lt _ _ _ hidx
          have main : ∀ (g1 : GameState) (played : Tile), g1.hands = s.game.hands →
              g1.board.length = s.game.board.length + 1 →
              handLen (finishValidMove { s with game := g1 } k p i played).1 p + 1 =
                handLen s p ∧
              (finishValidMove { s with game := g1 } k p i played).1.game.board.length =
                s.game.board.length + 1 ∧
              (∀ q, q ≠ p → (finishValidMove { s with game := g1 } k p i
                  played).1.game.hands q = s.game.hands q) := by
            intro g1 played hh hb
            obtain ⟨hfh, hfb, _, _, _⟩ := finishValidMove_fields { s with game := g1 } k p i
              played
            dsimp only at hfh hfb
            rw [hh] at hfh
            refine ⟨?_, ?_, ?_⟩
            · unfold handLen
              rw [hfh, Function.update_same, hhand]
              simp only [Option.getD_some]
              exact List.length_eraseIdx_add_one hi
            · rw [hfb]
              exact hb
            · intro q hq
              rw [hfh, Function.update_noteq hq]
          split
          · rename_i hfm
            rw [if_pos hfm] at hv
            split
            · rename_i hbad
              rw [hbad] at hv
              simp at hv
            · apply main
              · rfl
              · simp
          · rename_i hfm
            rw [if_neg hfm] at hv
            split
            · apply main
              · rfl
              · simp
            · split
              · apply main
                · rfl
                · simp
              · rename_i hnl hnr
                exfalso
                simp only [Bool.or_eq_true] at hv
                rcases hv with h | h
                · exact hnl h
                · exact hnr h
  · intro k
    unfold handlePassTurn
    dsimp only
    split
    · exact ⟨rfl, rfl⟩
    · split
      · exact ⟨rfl, rfl⟩
      · obtain ⟨ct, hct⟩ := nextTurn_shape s.game
        rw [hct]
        obtain ⟨hh, hb, _, _, _, _⟩ := checkRoundEnd_core_fields
          { s with game := { s.game with currentTurn := ct } }
        exact ⟨hh, hb⟩

/-- C1 witness: in the concrete reachable dealt round `demoRoundState` the
hands+board total is 28, and the accepted opening placement by seat 4
(socket 4, seat index 3) removes exactly one tile from that hand. -/
theorem C1_round_tile_conservation_witness :
    (totalHandLen demoRoundState + demoRoundState.game.board.length = 28) ∧
    handLen (handlePlaceTile demoRoundState 4 ⟨6, 6⟩ "left").1 3 + 1 =
      handLen demoRoundState 3 := by
  constructor
  · exact (C1_round_tile_conservation demoRoundState_reachable).1 (by decide)
  · exact ((C1_round_tile_conservation demoRoundState_reachable).2.1 4 ⟨6, 6⟩ "left" 3
      (by decide) (by decide)).1

/-- C2: in every reachable state with a non-empty board `leftEnd`/`rightEnd`
are the outward faces of the first/last board tile; an accepted left
placement prepends the tile oriented so its right face equals the previous
`leftEnd` and sets `leftEnd` to the tile's other face (the right end
untouched), and symmetrically for an accepted right placement. -/
theorem C2_board_ends {s : ServerState} (hreach : Reachable s) :
    (s.game.board ≠ [] →
      s.game.leftEnd = s.game.board.head?.map Tile.left ∧
      s.game.rightEnd = s.game.board.getLast?.map Tile.right) ∧
    (∀ k p hand i, jugadorNameOf s k = some p → s.game.gameInitialized = true →
      s.game.currentTurn = some p → s.game.isFirstMove = false →
      s.game.hands p = some hand →
      ∀ tile, hand.findIdx? (fun t => tileMatches t tile) = some i →
      ((some (hand.getD i default).left = s.game.leftEnd ∨
        some (hand.getD i default).right = s.game.leftEnd) →
        (handlePlaceTile s k tile "left").1.game.board =
          (if some (hand.getD i default).right == s.game.leftEnd then hand.getD i default
           else ⟨(hand.getD i default).right, (hand.getD i default).left⟩) :: s.game.board ∧
        some (if some (hand.getD i default).right == s.game.leftEnd then hand.getD i default
           else Tile.mk (hand.getD i default).right (hand.getD i default).left).right =
          s.game.leftEnd ∧
        (handlePlaceTile s k tile "left").1.game.leftEnd =
          some (if some (hand.getD i default).right == s.game.leftEnd then hand.getD i default
           else Tile.mk (hand.getD i default).right (hand.getD i default).left).left ∧
        (handlePlaceTile s k tile "left").1.game.rightEnd = s.game.rightEnd) ∧
      ((some (hand.getD i default).left = s.game.rightEnd ∨
        some (hand.getD i default).right = s.game.rightEnd) →
        (handlePlaceTile s k tile "right").1.game.board =
          s.game.board ++ [if some (hand.getD i default).left == s.game.rightEnd then hand.getD i default
           else ⟨(hand.getD i default).right, (hand.getD i default).left⟩] ∧
        some (if some (hand.getD i default).left == s.game.rightEnd then hand.getD i default
           else Tile.mk (hand.getD i default).right (hand.getD i default).left).left =
          s.game.rightEnd ∧
        (handlePlaceTile s k tile "right").1.game.rightEnd =
          some (if some (hand.getD i default).left == s.game.rightEnd then hand.getD i default
           else Tile.mk (hand.getD i default).right (hand.getD i default).left).right ∧
        (handlePlaceTile s k tile "right").1.game.leftEnd = s.game.leftEnd)) := by
  refine ⟨(reachable_inv hreach).ends, ?_⟩
  intro k p hand i hjn hinit hct hfm hhand tile hidx
  have hrun : ∀ position : String,
      handlePlaceTile s k tile position =
        (match hand.findIdx? (fun t => tileMatches t tile) with
         | none => (s, [])
         | some tileIndex =>
           if position == "left" &&
               (some (hand.getD tileIndex default).left == s.game.leftEnd ||
                some (hand.getD tileIndex default).right == s.game.leftEnd) then
             let oriented :=
               if some (hand.getD tileIndex default).right == s.game.leftEnd then
                 hand.getD tileIndex default
               else ⟨(hand.getD tileIndex default).right, (hand.getD tileIndex default).left⟩
             finishValidMove { s with game := { s.game with
               board := oriented :: s.game.board,
               leftEnd := some oriented.left } } k p tileIndex oriented
           else if position == "right" &&
               (some (hand.getD tileIndex default).left == s.game.rightEnd ||
                some (hand.getD tileIndex default).right == s.game.rightEnd) then
             let oriented :=
               if some (hand.getD tileIndex default).left == s.game.rightEnd then
                 hand.getD tileIndex default
               else ⟨(hand.getD tileIndex default).right, (hand.getD tileIndex default).left⟩
             finishValidMove { s with game := { s.game with
               board := s.game.board ++ [oriented],
               rightEnd := some oriented.right } } k p tileIndex oriented
           else (s, [Event.gameError k "Invalid move!"])) := by
    intro position
    unfold handlePlaceTile
    rw [hjn, hct]
    dsimp only
    rw [hinit]
    simp only [beq_self_eq_true, Bool.not_true, Bool.or_self, Bool.false_eq_true, if_false]
    rw [hhand]
    dsimp only
    rw [hfm]
    simp only [Bool.false_eq_true, if_false]
  constructor
  · intro hor
    rw [hrun "left", hidx]
    dsimp only
    have hcond : (some (hand.getD i default).left == s.game.leftEnd ||
        some (hand.getD i default).right == s.game.leftEnd) = true := by
      rw [Bool.or_eq_true, beq_iff_eq, beq_iff_eq]
      exact hor
    rw [if_pos (show (("left" : String) == "left" &&
        (some (hand.getD i default).left == s.game.leftEnd ||
         some (hand.getD i default).right == s.game.leftEnd)) = true by
      rw [Bool.and_eq_true]; exact ⟨by decide, hcond⟩)]
    obtain ⟨_, hfb, hfl, hfr, _⟩ := finishValidMove_fields { s with game := { s.game with
      board := (if some (hand.getD i default).right == s.game.leftEnd then
          hand.getD i default
        else ⟨(hand.getD i default).right, (hand.getD i default).left⟩) :: s.game.board,
      leftEnd := some (if some (hand.getD i default).right == s.game.leftEnd then
          hand.getD i default
        else ⟨(hand.getD i default).right, (hand.getD i default).left⟩).left } } k p i
      (if some (hand.getD i default).right == s.game.leftEnd then hand.getD i default
        else ⟨(hand.getD i default).right, (hand.getD i default).left⟩)
    refine ⟨by rw [hfb], ?_, by rw [hfl], by rw [hfr]⟩
    by_cases hr : some (hand.getD i default).right = s.game.leftEnd
    · rw [if_pos (by rw [beq_iff_eq]; exact hr)]
      exact hr
    · have hl : some (hand.getD i default).left = s.game.leftEnd := by
        rcases hor with h | h
        · exact h
        · exact absurd h hr
      rw [if_neg (by rw [beq_iff_eq]; exact hr)]
      exact hl
  · intro hor
    rw [hrun "right", hidx]
    dsimp only
    have hcond : (some (hand.getD i default).left == s.game.rightEnd ||
        some (hand.getD i default).right == s.game.rightEnd) = true := by
      rw [Bool.or_eq_true, beq_iff_eq, beq_iff_eq]
      exact hor
    rw [if_neg (by simp), if_pos (show (("right" : String) == "right" &&
        (some (hand.getD i default).left == s.game.rightEnd ||
         some (hand.getD i default).right == s.game.rightEnd)) = true by
      rw [Bool.and_eq_true]; exact ⟨by decide, hcond⟩)]
    obtain ⟨_, hfb, hfl, hfr, _⟩ := finishValidMove_fields { s with game := { s.game with
      board := s.game.board ++ [if some (hand.getD i default).left == s.game.rightEnd then
          hand.getD i default
        else ⟨(hand.getD i default).right, (hand.getD i default).left⟩],
      rightEnd := some (if some (hand.getD i default).left == s.game.rightEnd then
          hand.getD i default
        else ⟨(hand.getD i default).right, (hand.getD i default).left⟩).right } } k p i
      (if some (hand.getD i default).left == s.game.rightEnd then hand.getD i default
        else ⟨(hand.getD i default).right, (hand.getD i default).left⟩)
    refine ⟨by rw [hfb], ?_, by rw [hfr], by rw [hfl]⟩
    by_cases hl : some (hand.getD i default).left = s.game.rightEnd
    · rw [if_pos (by rw [beq_iff_eq]; exact hl)]
      exact hl
    · have hr : some (hand.getD i default).right = s.game.rightEnd := by
        rcases hor with h | h
        · exact absurd h hl
        · exact h
      rw [if_neg (by rw [beq_iff_eq]; exact hl)]
      exact hr

/-- C2 witness: after the double six opens the round, both ends read 6 off
the board, and seat 1's accepted left placement of `{0|6}` prepends it
oriented `6|…` against the previous left end. -/
theorem C2_board_ends_witness :
    (demoPlacedState.game.leftEnd = demoPlacedState.game.board.head?.map Tile.left ∧
     demoPlacedState.game.rightEnd = demoPlacedState.game.board.getLast?.map Tile.right) ∧
    (handlePlaceTile demoPlacedState 1 ⟨0, 6⟩ "left").1.game.board =
      Tile.mk 0 6 :: demoPlacedState.game.board := by
  constructor
  · exact (C2_board_ends demoPlacedState_reachable).1 (by decide)
  · exact (((C2_board_ends demoPlacedState_reachable).2 1 0
      [⟨0, 0⟩, ⟨0, 1⟩, ⟨0, 2⟩, ⟨0, 3⟩, ⟨0, 4⟩, ⟨0, 5⟩, ⟨0, 6⟩] 6
      (by decide) (by decide) (by decide) (by decide) (by decide) ⟨0, 6⟩ (by decide)).1
      (by decide)).1

/-! ### The winner settlement path -/

theorem find?_unique {α} (pr : α → Bool) (a : α) (hpa : pr a = true) :
    ∀ l : List α, a ∈ l → (∀ b ∈ l, b ≠ a → pr b = false) → l.find? pr = some a := by
  intro l
  induction l with
  | nil => intro ha _; simp at ha
  | cons x xs ih =>
    intro ha hother
    cases hx : pr x with
    | false =>
      have hxa : x ≠ a := fun he => by rw [he, hpa] at hx; cases hx
      have hax : a ∈ xs := by
        rcases List.mem_cons.1 ha with h | h
        · exact absurd h.symm hxa
        · exact h
      simp only [List.find?_cons, hx]
      exact ih hax (fun b hb hba => hother b (List.mem_cons_of_mem x hb) hba)
    | true =>
      by_cases hxa : x = a
      · subst hxa
        simp [List.find?_cons, hx]
      · rw [hother x (by simp) hxa] at hx
        cases hx

theorem endRound_winner {s : ServerState} {w : PlayerName} {dn : Name}
    (hinfo : s.game.jugadoresInfo.find? (fun pr => pr.1 == w) = some (w, dn)) :
    (endRound s (.winner w)).1.game.lastWinner = some w ∧
    (if s.game.teams.teamA.contains w then
      (endRound s (.winner w)).1.game.teamScores.teamA =
          s.game.teamScores.teamA + teamPips s.game s.game.teams.teamB ∧
        (endRound s (.winner w)).1.game.teamScores.teamB = s.game.teamScores.teamB
     else
      (endRound s (.winner w)).1.game.teamScores.teamB =
          s.game.teamScores.teamB + teamPips s.game s.game.teams.teamA ∧
        (endRound s (.winner w)).1.game.teamScores.teamA = s.game.teamScores.teamA) ∧
    (Event.playerWonHand w dn (teamPips s.game
        (if s.game.teams.teamA.contains w then s.game.teams.teamB else s.game.teams.teamA))
      ∈ (endRound s (.winner w)).2) := by
  unfold endRound endRoundTry
  dsimp only
  by_cases hA : s.game.teams.teamA.contains w
  · simp only [hA, eq_self_iff_true, if_true]
    rw [hinfo]
    dsimp only
    refine ⟨?_, ⟨?_, ?_⟩, ?_⟩
    · split <;> rfl
    · split <;> rfl
    · split <;> rfl
    · split <;> simp [broadcastGameState] <;> try rfl
  · have hA' : s.game.teams.teamA.contains w = false := by simpa using hA
    simp only [hA', Bool.false_eq_true, if_false]
    rw [hinfo]
    dsimp only
    refine ⟨?_, ⟨?_, ?_⟩, ?_⟩
    · split <;> rfl
    · split <;> rfl
    · split <;> rfl
    · split <;> simp [broadcastGameState] <;> try rfl

theorem checkRoundEnd_winner {s : ServerState} {w : PlayerName}
    (hinit : s.game.gameInitialized = true)
    (hw : (connectedSeats s).find? (fun p =>
        match s.game.hands p with
        | some h => h.isEmpty
        | none => false) = some w) :
    checkRoundEnd s = endRound s (.winner w) := by
  unfold checkRoundEnd
  rw [if_neg (by simp [hinit])]
  dsimp only
  rw [hw]

theorem finishValidMove_win {s : ServerState} {g1 : GameState} {k : Nat} {p : PlayerName}
    {i : Nat} {played : Tile} {hand : List Tile} {dn : Name}
    (hg1hands : g1.hands = s.game.hands)
    (hg1info : g1.jugadoresInfo = s.game.jugadoresInfo)
    (hg1teams : g1.teams = s.game.teams)
    (hg1scores : g1.teamScores = s.game.teamScores)
    (hg1init : g1.gameInitialized = true)
    (hhand : s.game.hands p = some hand)
    (hempty : hand.eraseIdx i = [])
    (hconn : (s.jugadores p).isConnected = true)
    (hnoother : ∀ q, q ≠ p → (s.jugadores q).isConnected = true → s.game.hands q ≠ some [])
    (hinfo : s.game.jugadoresInfo.find? (fun pr => pr.1 == p) = some (p, dn)) :
    (finishValidMove { s with game := g1 } k p i played).1.game.lastWinner = some p ∧
    ((if s.game.teams.teamA.contains p then
        (finishValidMove { s with game := g1 } k p i played).1.game.teamScores.teamA =
            s.game.teamScores.teamA +
              teamPips { s.game with hands := Function.update s.game.hands p (some []) }
                s.game.teams.teamB ∧
          (finishValidMove { s with game := g1 } k p i played).1.game.teamScores.teamB =
            s.game.teamScores.teamB
      else
        (finishValidMove { s with game := g1 } k p i played).1.game.teamScores.teamB =
            s.game.teamScores.teamB +
              teamPips { s.game with hands := Function.update s.game.hands p (some []) }
                s.game.teams.teamA ∧
          (finishValidMove { s with game := g1 } k p i played).1.game.teamScores.teamA =
            s.game.teamScores.teamA) ∧
      Event.playerWonHand p dn
          (teamPips { s.game with hands := Function.update s.game.hands p (some []) }
            (if s.game.teams.teamA.contains p then s.game.teams.teamB else s.game.teams.teamA))
        ∈ (finishValidMove { s with game := g1 } k p i played).2) := by
  unfold finishValidMove
  dsimp only
  rw [hg1hands, hhand]
  simp only [Option.getD_some]
  rw [hempty]
  obtain ⟨ct, hct⟩ := nextTurn_shape { g1 with
    hands := Function.update s.game.hands p (some []),
    lastPlayedTile := some played }
  rw [hct]
  have hfind : (connectedSeats { s with game := { { g1 with
      hands := Function.update s.game.hands p (some []),
      lastPlayedTile := some played } with currentTurn := ct } }).find? (fun q =>
        match Function.update s.game.hands p (some []) q with
        | some h => h.isEmpty
        | none => false) = some p := by
    apply find?_unique
    · simp [Function.update]
    · simp [connectedSeats, List.mem_filter, hconn]
    · intro q hq hqp
      have hqconn : (s.jugadores q).isConnected = true := by
        simp only [connectedSeats, List.mem_filter] at hq
        exact hq.2
      rw [Function.update_noteq hqp]
      cases hh : s.game.hands q with
      | none => rfl
      | some h =>
        have := hnoother q hqp hqconn
        rw [hh] at this
        have hne : h ≠ [] := fun he => this (by rw [he])
        simpa using hne
  rw [checkRoundEnd_winner (by exact hg1init) hfind]
  have hinfo' : ({ s with game := { { g1 with
      hands := Function.update s.game.hands p (some []),
      lastPlayedTile := some played } with
      currentTurn := ct } } : ServerState).game.jugadoresInfo.find?
        (fun pr => pr.1 == p) = some (p, dn) := by
    dsimp only
    rw [hg1info]
    exact hinfo
  rw [← hg1teams, ← hg1scores]
  obtain ⟨hlw, hsc, hev⟩ := endRound_winner hinfo'
  exact ⟨hlw, hsc, List.mem_append.2 (Or.inr hev)⟩

/-- C3: when an accepted placement empties a connected seat's hand (no other
connected seat's hand being empty), the round settles as a win for that seat:
it becomes `lastWinner`, its team's score increases by exactly the pip sum of
the two opposing seats' remaining hands, and a `playerWonHand` notice naming
the seat and the awarded points is broadcast. -/
theorem C3_hand_empties_wins {s : ServerState} {k : Nat} {p : PlayerName}
    {hand : List Tile} {i : Nat} (tile : Tile) (position : String)
    (hjn : jugadorNameOf s k = some p)
    (hconn : (s.jugadores p).isConnected = true)
    (hhand : s.game.hands p = some hand)
    (hidx : hand.findIdx? (fun t => tileMatches t tile) = some i)
    (hvalid : placeValid s k tile position = true)
    (hempty : hand.eraseIdx i = [])
    (hnoother : ∀ q, q ≠ p → (s.jugadores q).isConnected = true → s.game.hands q ≠ some [])
    {dn : Name}
    (hinfo : s.game.jugadoresInfo.find? (fun pr => pr.1 == p) = some (p, dn)) :
    (handlePlaceTile s k tile position).1.game.lastWinner = some p ∧
    ((if s.game.teams.teamA.contains p then
        (handlePlaceTile s k tile position).1.game.teamScores.teamA =
            s.game.teamScores.teamA +
              teamPips { s.game with hands := Function.update s.game.hands p (some []) }
                s.game.teams.teamB ∧
          (handlePlaceTile s k tile position).1.game.teamScores.teamB =
            s.game.teamScores.teamB
      else
        (handlePlaceTile s k tile position).1.game.teamScores.teamB =
            s.game.teamScores.teamB +
              teamPips { s.game with hands := Function.update s.game.hands p (some []) }
                s.game.teams.teamA ∧
          (handlePlaceTile s k tile position).1.game.teamScores.teamA =
            s.game.teamScores.teamA) ∧
      Event.playerWonHand p dn
          (teamPips { s.game with hands := Function.update s.game.hands p (some []) }
            (if s.game.teams.teamA.contains p then s.game.teams.teamB else s.game.teams.teamA))
        ∈ (handlePlaceTile s k tile position).2) := by
  unfold placeValid at hvalid
  rw [hjn] at hvalid
  cases hct : s.game.currentTurn with
  | none => rw [hct] at hvalid; simp at hvalid
  | some ct =>
    rw [hct] at hvalid
    dsimp only at hvalid
    have hA : (ct == p && s.game.gameInitialized) = true := by
      cases hA0 : (ct == p && s.game.gameInitialized) with
      | true => rfl
      | false => rw [hA0] at hvalid; simp at hvalid
    rw [hA, Bool.true_and] at hvalid
    have hA' := hA
    simp only [Bool.and_eq_true, beq_iff_eq] at hA'
    obtain ⟨hctp, hinit⟩ := hA'
    rw [hctp] at hct
    unfold handlePlaceTile
    rw [hjn, hct]
    dsimp only
    rw [hinit]
    simp only [beq_self_eq_true, Bool.not_true, Bool.or_self, Bool.false_eq_true, if_false]
    rw [hhand] at hvalid ⊢
    dsimp only at hvalid ⊢
    rw [hidx] at hvalid ⊢
    dsimp only at hvalid ⊢
    split
    · rename_i hfm
      rw [if_pos hfm] at hvalid
      split
      · rename_i hbad
        rw [hbad] at hvalid
        simp at hvalid
      · exact finishValidMove_win rfl rfl rfl rfl rfl hhand hempty hconn hnoother hinfo
    · rename_i hfm
      rw [if_neg hfm] at hvalid
      split
      · exact finishValidMove_win rfl rfl rfl rfl rfl hhand hempty hconn hnoother hinfo
      · split
        · exact finishValidMove_win rfl rfl rfl rfl rfl hhand hempty hconn hnoother hinfo
        · rename_i hnl hnr
          exfalso
          simp only [Bool.or_eq_true] at hvalid
          rcases hvalid with h | h
          · exact hnl h
          · exact hnr h

/-- A concrete mid-round state matching spec scenario B: seat 3 (`Jugador 3`,
team B) holds one tile `{3|3}` matching the right end, while the opposing
team's two hands total 23 pips. -/
def c3State : ServerState where
  jugadores := fun q =>
    { assignedName := some (match q with
        | 0 => "Ana".toList | 1 => "Bob".toList | 2 => "Cia".toList | 3 => "Dan".toList),
      socketId := some (q.val + 1), isConnected := true }
  sockets := fun k =>
    if k = 1 then some { jugadorName := some 0, alive := true }
    else if k = 2 then some { jugadorName := some 1, alive := true }
    else if k = 3 then some { jugadorName := some 2, alive := true }
    else if k = 4 then some { jugadorName := some 3, alive := true }
    else none
  game := { createNewGameState with
    jugadoresInfo := [(0, "Ana".toList), (1, "Bob".toList), (2, "Cia".toList), (3, "Dan".toList)]
    board := [⟨6, 3⟩]
    currentTurn := some 2
    gameInitialized := true
    leftEnd := some 6
    rightEnd := some 3
    teamScores := ⟨10, 20⟩
    isFirstMove := false
    teams := ⟨[0, 1], [2, 3]⟩
    hands := fun q => some (match q with
      | 0 => [⟨6, 5⟩, ⟨0, 1⟩]
      | 1 => [⟨4, 4⟩, ⟨3, 0⟩]
      | 2 => [⟨3, 3⟩]
      | 3 => [⟨2, 2⟩])
    spinnerTile := some ⟨6, 3⟩
    lastWinner := some 0
    isFirstRoundOfMatch := false
    seating := [0, 2, 1, 3] }

/-- C3 witness: in `c3State` seat 3 plays its last tile `{3|3}` on the right;
team B is awarded the opposing 23 pips and the `playerWonHand` notice names
seat 3 with 23 points. -/
theorem C3_hand_empties_wins_witness :
    (handlePlaceTile c3State 3 ⟨3, 3⟩ "right").1.game.lastWinner = some 2 ∧
    (handlePlaceTile c3State 3 ⟨3, 3⟩ "right").1.game.teamScores.teamB =
      c3State.game.teamScores.teamB + 23 ∧
    Event.playerWonHand 2 "Cia".toList 23 ∈ (handlePlaceTile c3State 3 ⟨3, 3⟩ "right").2 := by
  have h := @C3_hand_empties_wins c3State 3 2 [⟨3, 3⟩] 0
    ⟨3, 3⟩ "right" (by decide) (by decide) (by decide) (by decide) (by decide) (by decide)
    (by decide) "Cia".toList (by decide)
  exact ⟨h.1, h.2.1.1, h.2.2⟩

/-! ### The blocked settlement path -/

instance sortRelTotal {β : Type} [LinearOrder β] :
    IsTotal (PlayerName × β) (fun a b => a.2 ≤ b.2) := ⟨fun a b => le_total a.2 b.2⟩

instance sortRelTrans {β : Type} [LinearOrder β] :
    IsTrans (PlayerName × β) (fun a b => a.2 ≤ b.2) := ⟨fun _ _ _ => le_trans⟩

theorem sort_head_min {β : Type} [LinearOrder β] (l : List (PlayerName × β))
    (pr : PlayerName × β)
    (h : (l.insertionSort (fun a b => a.2 ≤ b.2)).head? = some pr) :
    pr ∈ l ∧ ∀ q ∈ l, pr.2 ≤ q.2 := by
  have hperm := List.perm_insertionSort (fun a b : PlayerName × β => a.2 ≤ b.2) l
  have hsorted := List.sorted_insertionSort (fun a b : PlayerName × β => a.2 ≤ b.2) l
  cases hs : l.insertionSort (fun a b => a.2 ≤ b.2) with
  | nil => rw [hs] at h; simp at h
  | cons x xs =>
    rw [hs] at h hperm hsorted
    simp only [List.head?_cons, Option.some_inj] at h
    rw [← h]
    constructor
    · exact hperm.mem_iff.1 (by simp)
    · intro q hq
      have hq' : q ∈ x :: xs := hperm.mem_iff.2 hq
      rcases List.mem_cons.1 hq' with h2 | h2
      · rw [h2]
      · exact (List.pairwise_cons.1 hsorted).1 q h2

theorem checkRoundEnd_blocked {s : ServerState}
    (hinit : s.game.gameInitialized = true)
    (hnoempty : ∀ p, (s.jugadores p).isConnected = true → s.game.hands p ≠ some [])
    (hnomove : ∀ p, (s.jugadores p).isConnected = true → hasValidMove s p = false) :
    checkRoundEnd s = endRound s .blocked := by
  unfold checkRoundEnd
  rw [if_neg (by simp [hinit])]
  dsimp only
  have hfind : (connectedSeats s).find? (fun p =>
      match s.game.hands p with
      | some h => h.isEmpty
      | none => false) = none := by
    rw [List.find?_eq_none]
    intro p hp
    have hconn : (s.jugadores p).isConnected = true := by
      simp only [connectedSeats, List.mem_filter] at hp
      exact hp.2
    cases hh : s.game.hands p with
    | none => simp
    | some h =>
      have := hnoempty p hconn
      rw [hh] at this
      have hne : h ≠ [] := fun he => this (by rw [he])
      simpa using hne
  rw [hfind]
  dsimp only
  rw [if_neg ?_]
  intro hany
  rw [List.any_eq_true] at hany
  obtain ⟨p, hp, hmv⟩ := hany
  have hconn : (s.jugadores p).isConnected = true := by
    simp only [connectedSeats, List.mem_filter] at hp
    exact hp.2
  rw [hnomove p hconn] at hmv
  cases hmv

theorem endRound_blocked_diff {s : ServerState} {pr : PlayerName × Nat}
    (hdiff : teamPips s.game s.game.teams.teamA ≠ teamPips s.game s.game.teams.teamB)
    (hhead : (sortByScore ((connectedSeats s).map fun p =>
        (p, calculateHandValue (s.game.hands p)))).head? = some pr) :
    (if teamPips s.game s.game.teams.teamA < teamPips s.game s.game.teams.teamB then
       (endRound s .blocked).1.game.teamScores.teamA =
           s.game.teamScores.teamA + teamPips s.game s.game.teams.teamB ∧
         (endRound s .blocked).1.game.teamScores.teamB = s.game.teamScores.teamB
     else
       (endRound s .blocked).1.game.teamScores.teamB =
           s.game.teamScores.teamB + teamPips s.game s.game.teams.teamA ∧
         (endRound s .blocked).1.game.teamScores.teamA = s.game.teamScores.teamA) ∧
    (endRound s .blocked).1.game.lastWinner = some pr.1 := by
  unfold endRound endRoundTry
  dsimp only
  rw [if_pos hdiff]
  by_cases hlt : teamPips s.game s.game.teams.teamA < teamPips s.game s.game.teams.teamB
  · simp only [if_pos hlt]
    rw [hhead]
    dsimp only
    refine ⟨⟨?_, ?_⟩, ?_⟩ <;> (split <;> rfl)
  · simp only [if_neg hlt]
    rw [hhead]
    dsimp only
    refine ⟨⟨?_, ?_⟩, ?_⟩ <;> (split <;> rfl)

/-- C4: when no connected seat has a legal move and no hand is empty (block)
and the two team pip totals differ, the lower-pip team is awarded exactly the
higher team's total, and the connected seat with the individually lowest pip
count becomes `lastWinner` (the next round's opening-seat candidate). -/
theorem C4_blocked_lower_team_wins {s : ServerState}
    (hinit : s.game.gameInitialized = true)
    (hnoempty : ∀ p, (s.jugadores p).isConnected = true → s.game.hands p ≠ some [])
    (hnomove : ∀ p, (s.jugadores p).isConnected = true → hasValidMove s p = false)
    (hdiff : teamPips s.game s.game.teams.teamA ≠ teamPips s.game s.game.teams.teamB)
    (hconnex : ∃ p, (s.jugadores p).isConnected = true) :
    (if teamPips s.game s.game.teams.teamA < teamPips s.game s.game.teams.teamB then
       (checkRoundEnd s).1.game.teamScores.teamA =
           s.game.teamScores.teamA + teamPips s.game s.game.teams.teamB ∧
         (checkRoundEnd s).1.game.teamScores.teamB = s.game.teamScores.teamB
     else
       (checkRoundEnd s).1.game.teamScores.teamB =
           s.game.teamScores.teamB + teamPips s.game s.game.teams.teamA ∧
         (checkRoundEnd s).1.game.teamScores.teamA = s.game.teamScores.teamA) ∧
    (∃ w, (checkRoundEnd s).1.game.lastWinner = some w ∧
       (s.jugadores w).isConnected = true ∧
       ∀ q, (s.jugadores q).isConnected = true →
         calculateHandValue (s.game.hands w) ≤ calculateHandValue (s.game.hands q)) := by
  rw [checkRoundEnd_blocked hinit hnoempty hnomove]
  obtain ⟨p0, hp0⟩ := hconnex
  have hlen0 : ((connectedSeats s).map fun p =>
      (p, calculateHandValue (s.game.hands p))).length ≠ 0 := by
    simp only [List.length_map]
    intro h0
    have hmem : p0 ∈ connectedSeats s := by
      simp [connectedSeats, List.mem_filter, hp0]
    rw [List.length_eq_zero.1 h0] at hmem
    simp at hmem
  obtain ⟨pr, hhead⟩ : ∃ pr, (sortByScore ((connectedSeats s).map fun p =>
      (p, calculateHandValue (s.game.hands p)))).head? = some pr := by
    cases hs : sortByScore ((connectedSeats s).map fun p =>
        (p, calculateHandValue (s.game.hands p))) with
    | nil =>
      exfalso
      apply hlen0
      have hl := congrArg List.length hs
      rw [show (sortByScore ((connectedSeats s).map fun p =>
          (p, calculateHandValue (s.game.hands p)))).length =
        ((connectedSeats s).map fun p =>
          (p, calculateHandValue (s.game.hands p))).length from
        (List.perm_insertionSort _ _).length_eq] at hl
      simpa using hl
    | cons x xs => exact ⟨x, by simp⟩
  obtain ⟨hscores, hlast⟩ := endRound_blocked_diff hdiff hhead
  refine ⟨hscores, pr.1, hlast, ?_, ?_⟩
  · obtain ⟨hmem, _⟩ := sort_head_min _ _ hhead
    obtain ⟨w, hw, hweq⟩ := List.mem_map.1 hmem
    simp only [connectedSeats, List.mem_filter] at hw
    rw [← hweq]
    exact hw.2
  · intro q hq
    obtain ⟨hmem, hmin⟩ := sort_head_min _ _ hhead
    obtain ⟨w, hw, hweq⟩ := List.mem_map.1 hmem
    have hpr2 : pr.2 = calculateHandValue (s.game.hands pr.1) := by
      rw [← hweq]
    rw [← hpr2]
    exact hmin (q, calculateHandValue (s.game.hands q))
      (List.mem_map.2 ⟨q, by simp [connectedSeats, List.mem_filter, hq], rfl⟩)

/-- A concrete blocked state matching spec scenario C: both board ends read
6, no hand can play, team A holds 14 pips, team B holds 9. -/
def c4State : ServerState where
  jugadores := fun q =>
    { assignedName := some (match q with
        | 0 => "Ana".toList | 1 => "Bob".toList | 2 => "Cia".toList | 3 => "Dan".toList),
      socketId := some (q.val + 1), isConnected := true }
  sockets := fun k =>
    if k = 1 then some { jugadorName := some 0, alive := true }
    else if k = 2 then some { jugadorName := some 1, alive := true }
    else if k = 3 then some { jugadorName := some 2, alive := true }
    else if k = 4 then some { jugadorName := some 3, alive := true }
    else none
  game := { createNewGameState with
    jugadoresInfo := [(0, "Ana".toList), (1, "Bob".toList), (2, "Cia".toList), (3, "Dan".toList)]
    board := [⟨6, 6⟩]
    currentTurn := some 0
    gameInitialized := true
    leftEnd := some 6
    rightEnd := some 6
    teamScores := ⟨5, 7⟩
    isFirstMove := false
    teams := ⟨[0, 1], [2, 3]⟩
    hands := fun q => some (match q with
      | 0 => [⟨5, 4⟩]
      | 1 => [⟨4, 1⟩]
      | 2 => [⟨2, 2⟩]
      | 3 => [⟨5, 0⟩])
    spinnerTile := some ⟨6, 6⟩
    lastWinner := some 0
    isFirstRoundOfMatch := false
    seating := [0, 2, 1, 3] }

/-- C4 witness: in the blocked `c4State` (team A 14 pips, team B 9), team B is
awarded 14 points and seat 3 (4 pips, the lowest) becomes `lastWinner`. -/
theorem C4_blocked_lower_team_wins_witness :
    (checkRoundEnd c4State).1.game.teamScores.teamB = c4State.game.teamScores.teamB + 14 ∧
    (checkRoundEnd c4State).1.game.teamScores.teamA = c4State.game.teamScores.teamA ∧
    (checkRoundEnd c4State).1.game.lastWinner = some 2 := by
  have h := C4_blocked_lower_team_wins (s := c4State) (by decide) (by decide) (by decide)
    (by decide) ⟨0, by decide⟩
  exact ⟨h.1.1, h.1.2, by decide⟩

/-! ### The blocked-tie settlement path -/

theorem endRound_blocked_tie {s : ServerState} {pr : PlayerName × WithTop Nat}
    (heq : teamPips s.game s.game.teams.teamA = teamPips s.game s.game.teams.teamB)
    (hA : s.game.teamScores.teamA < POINTS_TO_WIN_MATCH)
    (hB : s.game.teamScores.teamB < POINTS_TO_WIN_MATCH)
    (hhead : (sortByScoreT ((List.finRange 4).map fun p =>
        (p, if (s.jugadores p).isConnected
            then (calculateHandValue (s.game.hands p) : WithTop Nat)
            else ⊤))).head? = some pr) :
    (endRound s .blocked).1.game.teamScores = s.game.teamScores ∧
    (endRound s .blocked).1.game.endRoundMessage =
      some "Juego Cerrado! Empata nadie gana." ∧
    (endRound s .blocked).1.game.lastWinner = some pr.1 := by
  unfold endRound endRoundTry
  dsimp only
  rw [if_neg (show ¬(teamPips s.game s.game.teams.teamA ≠
      teamPips s.game s.game.teams.teamB) from by simpa using heq)]
  rw [hhead]
  dsimp only
  rw [if_neg (show ¬(s.game.teamScores.teamA ≥ POINTS_TO_WIN_MATCH ∨
      s.game.teamScores.teamB ≥ POINTS_TO_WIN_MATCH) from by
    rintro (h | h)
    · exact absurd h (by simpa using hA)
    · exact absurd h (by simpa using hB))]
  exact ⟨rfl, rfl, rfl⟩

/-- C5 (amended): a blocked round with exactly equal team pip totals changes
neither score, records the explicit tie message, and makes the connected seat
with the lowest individual pip count the `lastWinner` (hence the next
round's opening candidate); the double six plays no role in that choice. -/
theorem C5_blocked_tie {s : ServerState}
    (hinit : s.game.gameInitialized = true)
    (hnoempty : ∀ p, (s.jugadores p).isConnected = true → s.game.hands p ≠ some [])
    (hnomove : ∀ p, (s.jugadores p).isConnected = true → hasValidMove s p = false)
    (heq : teamPips s.game s.game.teams.teamA = teamPips s.game s.game.teams.teamB)
    (hA : s.game.teamScores.teamA < POINTS_TO_WIN_MATCH)
    (hB : s.game.teamScores.teamB < POINTS_TO_WIN_MATCH)
    (hconnex : ∃ p, (s.jugadores p).isConnected = true) :
    (checkRoundEnd s).1.game.teamScores = s.game.teamScores ∧
    (checkRoundEnd s).1.game.endRoundMessage =
      some "Juego Cerrado! Empata nadie gana." ∧
    (∃ w, (checkRoundEnd s).1.game.lastWinner = some w ∧
       (s.jugadores w).isConnected = true ∧
       ∀ q, (s.jugadores q).isConnected = true →
         calculateHandValue (s.game.hands w) ≤ calculateHandValue (s.game.hands q)) := by
  rw [checkRoundEnd_blocked hinit hnoempty hnomove]
  obtain ⟨p0, hp0⟩ := hconnex
  obtain ⟨pr, hhead⟩ : ∃ pr, (sortByScoreT ((List.finRange 4).map fun p =>
      (p, if (s.jugadores p).isConnected
          then (calculateHandValue (s.game.hands p) : WithTop Nat)
          else ⊤))).head? = some pr := by
    cases hs : sortByScoreT ((List.finRange 4).map fun p =>
        (p, if (s.jugadores p).isConnected
            then (calculateHandValue (s.game.hands p) : WithTop Nat)
            else ⊤)) with
    | nil =>
      exfalso
      have hl := congrArg List.length hs
      rw [show (sortByScoreT ((List.finRange 4).map fun p =>
          (p, if (s.jugadores p).isConnected
              then (calculateHandValue (s.game.hands p) : WithTop Nat)
              else ⊤))).length =
        ((List.finRange 4).map fun p =>
          (p, if (s.jugadores p).isConnected
              then (calculateHandValue (s.game.hands p) : WithTop Nat)
              else ⊤)).length from (List.perm_insertionSort _ _).length_eq] at hl
      simp at hl
    | cons x xs => exact ⟨x, by simp⟩
  obtain ⟨hsc, hmsg, hlast⟩ := endRound_blocked_tie heq hA hB hhead
  obtain ⟨hmem, hmin⟩ := sort_head_min _ _ hhead
  obtain ⟨w, _, hweq⟩ := List.mem_map.1 hmem
  have hwconn : (s.jugadores w).isConnected = true := by
    by_contra hwc
    have hprtop : pr.2 = ⊤ := by
      rw [← hweq]
      simp [hwc]
    have hle := hmin (p0, if (s.jugadores p0).isConnected
        then (calculateHandValue (s.game.hands p0) : WithTop Nat) else ⊤)
      (List.mem_map.2 ⟨p0, by simp, rfl⟩)
    rw [hprtop, hp0] at hle
    simp only [if_true] at hle
    exact WithTop.coe_ne_top (top_le_iff.1 hle)
  have hpr1 : pr.1 = w := by rw [← hweq]
  have hpr2 : pr.2 = (calculateHandValue (s.game.hands w) : WithTop Nat) := by
    rw [← hweq]
    simp [hwconn]
  refine ⟨hsc, hmsg, w, by rw [hlast, hpr1], hwconn, ?_⟩
  intro q hq
  have hle := hmin (q, if (s.jugadores q).isConnected
      then (calculateHandValue (s.game.hands q) : WithTop Nat) else ⊤)
    (List.mem_map.2 ⟨q, by simp, rfl⟩)
  rw [hpr2, hq] at hle
  simp only [if_true] at hle
  exact_mod_cast hle

/-- A concrete blocked state with an exact 3–3 pip tie between the teams:
both ends read 6, no hand holds a 6, and seat 4 has the lowest pip count. -/
def tieState : ServerState where
  jugadores := fun q =>
    { assignedName := some (match q with
        | 0 => "Ana".toList | 1 => "Bob".toList | 2 => "Cia".toList | 3 => "Dan".toList),
      socketId := some (q.val + 1), isConnected := true }
  sockets := fun k =>
    if k = 1 then some { jugadorName := some 0, alive := true }
    else if k = 2 then some { jugadorName := some 1, alive := true }
    else if k = 3 then some { jugadorName := some 2, alive := true }
    else if k = 4 then some { jugadorName := some 3, alive := true }
    else none
  game := { createNewGameState with
    jugadoresInfo := [(0, "Ana".toList), (1, "Bob".toList), (2, "Cia".toList), (3, "Dan".toList)]
    board := [⟨6, 6⟩]
    currentTurn := some 0
    gameInitialized := true
    leftEnd := some 6
    rightEnd := some 6
    teamScores := ⟨10, 20⟩
    isFirstMove := false
    teams := ⟨[0, 1], [2, 3]⟩
    hands := fun q => some (match q with
      | 0 => [⟨0, 1⟩]
      | 1 => [⟨0, 2⟩]
      | 2 => [⟨1, 2⟩]
      | 3 => [⟨0, 0⟩])
    spinnerTile := some ⟨6, 6⟩
    lastWinner := some 0
    isFirstRoundOfMatch := false
    seating := [0, 2, 1, 3] }

/-- C5 witness: settling the tied blocked `tieState` changes no score,
records the tie message, and picks seat 4 (0 pips) as `lastWinner`. -/
theorem C5_blocked_tie_witness :
    (checkRoundEnd tieState).1.game.teamScores = tieState.game.teamScores ∧
    (checkRoundEnd tieState).1.game.endRoundMessage =
      some "Juego Cerrado! Empata nadie gana." ∧
    (checkRoundEnd tieState).1.game.lastWinner = some 3 := by
  have h := C5_blocked_tie (s := tieState) (by decide) (by decide) (by decide) (by decide)
    (by decide) (by decide) ⟨0, by decide⟩
  exact ⟨h.1, h.2.1, by decide⟩

/-- C5 counterexample: after the tied blocked round of `tieState` settles
(via seat 1's accepted pass), the next round — dealt from a pool that gives
the double six to seat 3 — opens with seat 4 (the tie's lowest-pip
`lastWinner`), not with the seat holding the double six.  The opener after a
tie is therefore not decided by the double six, contradicting the claim. -/
theorem C5_counterexample :
    (generateDominoes.drop 7 ++ generateDominoes.take 7).Perm generateDominoes ∧
    ((applyCmd tieState (.passTurn 1)).1.game.teamScores = tieState.game.teamScores ∧
     (applyCmd tieState (.passTurn 1)).1.game.endRoundMessage =
       some "Juego Cerrado! Empata nadie gana.") ∧
    (let pool := generateDominoes.drop 7 ++ generateDominoes.take 7
     let s2 := (applyCmd (applyCmd (applyCmd (applyCmd
       (applyCmd tieState (.passTurn 1)).1
       (.ready 1 pool)).1 (.ready 2 pool)).1 (.ready 3 pool)).1 (.ready 4 pool)).1
     s2.game.gameInitialized = true ∧
     s2.game.currentTurn = some 3 ∧
     (∀ q : PlayerName, (Tile.mk 6 6 ∈ (s2.game.hands q).getD []) ↔ q = 2) ∧
     (3 : PlayerName) ≠ 2) := by
  refine ⟨?_, ⟨by decide, by decide⟩, by decide, by decide, by decide, by decide⟩
  have h : generateDominoes.take 7 ++ generateDominoes.drop 7 = generateDominoes :=
    List.take_append_drop 7 _
  exact List.perm_append_comm.trans (h ▸ List.Perm.refl _)

/-! ### The forced double-six opening -/

theorem initializeRound_hands {s : ServerState} (pool : List Tile)
    (hc : connectedCount s = 4) :
    (initializeRound s pool).1.game.hands =
      Function.update (Function.update (Function.update (Function.update s.game.hands
        0 (some (pool.take 7)))
        1 (some ((pool.drop 7).take 7)))
        2 (some (((pool.drop 7).drop 7).take 7)))
        3 (some ((((pool.drop 7).drop 7).drop 7).take 7)) := by
  have hcs : connectedSeats s = [0, 1, 2, 3] := by
    rw [connectedSeats_eq_univ hc]; decide
  unfold initializeRound
  rw [hcs]
  dsimp only
  rw [dealLoop_hands]
  rfl

theorem initializeRound_currentTurn_first {s : ServerState} (pool : List Tile)
    (hc : connectedCount s = 4) (hfirst : s.game.isFirstRoundOfMatch = true) :
    (initializeRound s pool).1.game.currentTurn =
      some (((List.finRange 4).find? (fun p =>
        match (Function.update (Function.update (Function.update (Function.update s.game.hands
          0 (some (pool.take 7)))
          1 (some ((pool.drop 7).take 7)))
          2 (some (((pool.drop 7).drop 7).take 7)))
          3 (some ((((pool.drop 7).drop 7).drop 7).take 7))) p with
        | some h => h.any fun t => t.left == 6 && t.right == 6
        | none => false)).getD 0) := by
  have hcs : connectedSeats s = [0, 1, 2, 3] := by
    rw [connectedSeats_eq_univ hc]; decide
  unfold initializeRound
  rw [hcs]
  dsimp only
  rw [dealLoop_hands]
  show ({ s with game := { s.game with
      jugadoresInfo := _, board := _, currentTurn := _, gameInitialized := _,
      leftEnd := _, rightEnd := _, isFirstMove := _, teams := _, hands := _,
      spinnerTile := _, endRoundMessage := _, lastPlayedTile := _, matchOver := _,
      endMatchMessage := _, seating := _ } } : ServerState).game.currentTurn = _
  dsimp only
  rw [hfirst]
  simp only [if_true]
  rw [show (List.finRange 4 : List PlayerName) = [0, 1, 2, 3] from by decide]

theorem tileMatches_66 {t : Tile} (h : tileMatches t ⟨6, 6⟩ = true) : t = ⟨6, 6⟩ := by
  cases t with
  | mk l r =>
    simp only [tileMatches, Bool.or_eq_true, Bool.and_eq_true, beq_iff_eq] at h
    rcases h with ⟨h1, h2⟩ | ⟨h1, h2⟩ <;> (subst h1; subst h2; rfl)

/-- C6: in the first round of a match with an empty board, the opening turn
goes to the seat dealt the double six; with that seat in turn, any first tile
other than `{6|6}` is rejected with no state change; `{6|6}` itself is
accepted, becomes the spinner, and sets both open ends to 6. -/
theorem C6_first_round_double_six {s : ServerState} :
    (∀ pool, pool.Perm generateDominoes → connectedCount s = 4 →
      s.game.isFirstRoundOfMatch = true →
      ∀ p, Tile.mk 6 6 ∈ (((initializeRound s pool).1.game.hands p).getD []) →
        (initializeRound s pool).1.game.currentTurn = some p) ∧
    (∀ k p tile position, jugadorNameOf s k = some p → s.game.currentTurn = some p →
      s.game.isFirstMove = true → s.game.isFirstRoundOfMatch = true →
      (tile.left ≠ 6 ∨ tile.right ≠ 6) →
      (handlePlaceTile s k tile position).1 = s) ∧
    (∀ k p hand i position, jugadorNameOf s k = some p → s.game.gameInitialized = true →
      s.game.currentTurn = some p → s.game.isFirstMove = true →
      s.game.isFirstRoundOfMatch = true → s.game.board = [] →
      s.game.hands p = some hand →
      hand.findIdx? (fun t => tileMatches t ⟨6, 6⟩) = some i →
      (handlePlaceTile s k ⟨6, 6⟩ position).1.game.spinnerTile = some ⟨6, 6⟩ ∧
      (handlePlaceTile s k ⟨6, 6⟩ position).1.game.leftEnd = some 6 ∧
      (handlePlaceTile s k ⟨6, 6⟩ position).1.game.rightEnd = some 6 ∧
      (handlePlaceTile s k ⟨6, 6⟩ position).1.game.board = [Tile.mk 6 6]) := by
  refine ⟨?_, ?_, ?_⟩
  · intro pool hperm hc hfirst p hmem
    have hpl : pool.length = 28 := by rw [hperm.length_eq, generateDominoes_length]
    rw [initializeRound_hands pool hc] at hmem
    rw [initializeRound_currentTurn_first pool hc hfirst]
    have h3 : (((pool.drop 7).drop 7).drop 7).take 7 = ((pool.drop 7).drop 7).drop 7 :=
      List.take_of_length_le (by simp [hpl])
    have hsplit : pool.take 7 ++ ((pool.drop 7).take 7 ++
        ((((pool.drop 7).drop 7).take 7) ++ ((((pool.drop 7).drop 7).drop 7).take 7))) =
        pool := by
      rw [h3, List.take_append_drop, List.take_append_drop, List.take_append_drop]
    have hcount : (pool.take 7).count ⟨6, 6⟩ + ((pool.drop 7).take 7).count ⟨6, 6⟩ +
        (((pool.drop 7).drop 7).take 7).count ⟨6, 6⟩ +
        ((((pool.drop 7).drop 7).drop 7).take 7).count ⟨6, 6⟩ = 1 := by
      have h1 : pool.count ⟨6, 6⟩ = 1 := by
        rw [hperm.count_eq]
        decide
      rw [← hsplit] at h1
      simp only [List.count_append] at h1
      omega
    congr 1
    have hfind : (List.finRange 4).find? (fun q =>
        match (Function.update (Function.update (Function.update (Function.update s.game.hands
          0 (some (pool.take 7)))
          1 (some ((pool.drop 7).take 7)))
          2 (some (((pool.drop 7).drop 7).take 7)))
          3 (some ((((pool.drop 7).drop 7).drop 7).take 7))) q with
        | some h => h.any fun t => t.left == 6 && t.right == 6
        | none => false) = some p := by
      apply find?_unique
      · fin_cases p <;> simp at hmem ⊢ <;> exact ⟨_, hmem, rfl, rfl⟩
      · fin_cases p <;> decide
      · intro q hq hqp
        have hmemcount : ∀ c : List Tile, Tile.mk 6 6 ∈ c → 1 ≤ c.count ⟨6, 6⟩ :=
          fun c hc0 => List.count_pos_iff.2 hc0
        have hnot : ∀ c : List Tile, c.count ⟨6, 6⟩ = 0 → ∀ t ∈ c,
            t.left = 6 → ¬ t.right = 6 := by
          intro c hc0 t ht hx1 hx2
          have ht66 : t = ⟨6, 6⟩ := by
            cases t with
            | mk a b =>
              have h1 : a = 6 := hx1
              have h2 : b = 6 := hx2
              rw [h1, h2]
          rw [ht66] at ht
          exact absurd (List.count_eq_zero.1 hc0) (by simp [ht])
        fin_cases p <;> fin_cases q <;> simp at hqp hmem hcount ⊢ <;>
          (intro t ht
           refine hnot _ ?_ t ht
           have h1 := hmemcount _ hmem
           omega)
    rw [hfind]
    rfl
  · intro k p tile position hjn hct hfm hfirst htile
    unfold handlePlaceTile
    rw [hjn, hct]
    dsimp only
    cases hinit : s.game.gameInitialized with
    | false => rfl
    | true =>
      simp only [beq_self_eq_true, Bool.not_true, Bool.or_self, Bool.false_eq_true, if_false]
      cases hhand : s.game.hands p with
      | none => rfl
      | some hand =>
        dsimp only
        cases hidx : hand.findIdx? (fun t => tileMatches t tile) with
        | none => rfl
        | some i =>
          dsimp only
          rw [hfm]
          simp only [if_true]
          have hcond : (tile.left != 6 || tile.right != 6) = true := by
            rcases htile with h | h <;> simp [h]
          rw [hfirst, hcond]
          rfl
  · intro k p hand i position hjn hinit hct hfm hfirst hb hhand hidx
    unfold handlePlaceTile
    rw [hjn, hct]
    dsimp only
    rw [hinit]
    simp only [beq_self_eq_true, Bool.not_true, Bool.or_self, Bool.false_eq_true, if_false]
    rw [hhand]
    dsimp only
    rw [hidx]
    dsimp only
    rw [hfm]
    simp only [if_true]
    rw [if_neg (by rw [hfirst]; simp)]
    have h66 : hand.getD i default = ⟨6, 6⟩ :=
      tileMatches_66 (findIdx?_getD hand _ i hidx)
    refine ⟨?_, ?_, ?_, ?_⟩
    · rw [(finishValidMove_fields _ k p i _).2.2.2.2]
      dsimp only
      rw [h66]
    · rw [(finishValidMove_fields _ k p i _).2.2.1]
      dsimp only
      rw [h66]
    · rw [(finishValidMove_fields _ k p i _).2.2.2.1]
      dsimp only
      rw [h66]
    · rw [(finishValidMove_fields _ k p i _).2.1]
      dsimp only
      rw [h66, hb]
      rfl

theorem C6_first_round_double_six_witness :
    (initializeRound demoRoundState generateDominoes).1.game.currentTurn = some 3 ∧
    (handlePlaceTile demoRoundState 4 ⟨5, 5⟩ "left").1 = demoRoundState ∧
    ((handlePlaceTile demoRoundState 4 ⟨6, 6⟩ "left").1.game.spinnerTile = some ⟨6, 6⟩ ∧
     (handlePlaceTile demoRoundState 4 ⟨6, 6⟩ "left").1.game.leftEnd = some 6 ∧
     (handlePlaceTile demoRoundState 4 ⟨6, 6⟩ "left").1.game.rightEnd = some 6 ∧
     (handlePlaceTile demoRoundState 4 ⟨6, 6⟩ "left").1.game.board = [Tile.mk 6 6]) := by
  refine ⟨?_, ?_, ?_⟩
  · exact (@C6_first_round_double_six demoRoundState).1 generateDominoes
      (List.Perm.refl _) (by decide) (by decide) 3 (by decide)
  · exact (@C6_first_round_double_six demoRoundState).2.1 4 3 ⟨5, 5⟩ "left"
      (by decide) (by decide) (by decide) (by decide) (Or.inl (by decide))
  · exact (@C6_first_round_double_six demoRoundState).2.2 4 3
      [⟨3, 6⟩, ⟨4, 4⟩, ⟨4, 5⟩, ⟨4, 6⟩, ⟨5, 5⟩, ⟨5, 6⟩, ⟨6, 6⟩] 6 "left"
      (by decide) (by decide) (by decide) (by decide) (by decide) (by decide)
      (by decide) (by decide)

/-! ### Rejected moves leave the state untouched -/

/-- C7: a rejected move never mutates state or consumes the turn: a
`placeTile` from a seat other than the current turn, a `placeTile` naming a
tile absent from that seat's hand, a `placeTile` whose tile matches neither
open end, and a `passTurn` by a seat that still holds a playable tile each
leave the whole server state (hence board, hands, ends, scores and
`currentTurn`) exactly as it was. -/
theorem C7_rejected_moves_no_mutation {s : ServerState} :
    (∀ k p tile position, jugadorNameOf s k = some p →
      s.game.currentTurn ≠ some p →
      (handlePlaceTile s k tile position).1 = s) ∧
    (∀ k p hand tile position, jugadorNameOf s k = some p →
      s.game.hands p = some hand →
      hand.findIdx? (fun t => tileMatches t tile) = none →
      (handlePlaceTile s k tile position).1 = s) ∧
    (∀ k p hand i tile position, jugadorNameOf s k = some p →
      s.game.gameInitialized = true → s.game.currentTurn = some p →
      s.game.hands p = some hand →
      hand.findIdx? (fun t => tileMatches t tile) = some i →
      s.game.isFirstMove = false →
      some (hand.getD i default).left ≠ s.game.leftEnd →
      some (hand.getD i default).right ≠ s.game.leftEnd →
      some (hand.getD i default).left ≠ s.game.rightEnd →
      some (hand.getD i default).right ≠ s.game.rightEnd →
      (handlePlaceTile s k tile position).1 = s ∧
      (handlePlaceTile s k tile position).2 = [Event.gameError k "Invalid move!"]) ∧
    (∀ k p, jugadorNameOf s k = some p → hasValidMove s p = true →
      (handlePassTurn s k).1 = s) := by
  refine ⟨?_, ?_, ?_, ?_⟩
  · intro k p tile position hjn hct
    unfold handlePlaceTile
    rw [hjn]
    dsimp only
    cases hc : s.game.currentTurn with
    | none => simp
    | some a =>
      dsimp only
      have ha : (a == p) = false := by
        cases hab : a == p with
        | false => rfl
        | true => exact absurd (by rw [hc, beq_iff_eq.1 hab]) hct
      rw [ha]
      simp
  · intro k p hand tile position hjn hhand hidx
    unfold handlePlaceTile
    rw [hjn]
    dsimp only
    cases hinit : s.game.gameInitialized with
    | false => rfl
    | true =>
      cases hc : s.game.currentTurn with
      | none => rfl
      | some a =>
        dsimp only
        cases hab : a == p with
        | false => rfl
        | true =>
          simp only [Bool.not_true, Bool.or_self, Bool.false_eq_true, if_false]
          rw [hhand]
          dsimp only
          rw [hidx]
  · intro k p hand i tile position hjn hinit hct hhand hidx hfm hl1 hl2 hr1 hr2
    unfold handlePlaceTile
    rw [hjn, hct]
    dsimp only
    rw [hinit]
    simp only [beq_self_eq_true, Bool.not_true, Bool.or_self, Bool.false_eq_true, if_false]
    rw [hhand]
    dsimp only
    rw [hidx]
    dsimp only
    rw [hfm]
    simp only [Bool.false_eq_true, if_false]
    rw [if_neg (show ¬(position == "left" &&
        (some (hand.getD i default).left == s.game.leftEnd ||
         some (hand.getD i default).right == s.game.leftEnd)) = true from by
      simp only [Bool.and_eq_true, Bool.or_eq_true, beq_iff_eq, not_and, not_or]
      exact fun _ => ⟨hl1, hl2⟩)]
    rw [if_neg (show ¬(position == "right" &&
        (some (hand.getD i default).left == s.game.rightEnd ||
         some (hand.getD i default).right == s.game.rightEnd)) = true from by
      simp only [Bool.and_eq_true, Bool.or_eq_true, beq_iff_eq, not_and, not_or]
      exact fun _ => ⟨hr1, hr2⟩)]
    exact ⟨rfl, rfl⟩
  · intro k p hjn hvm
    unfold handlePassTurn
    rw [hjn]
    dsimp only
    rw [hvm]
    simp

theorem C7_rejected_moves_no_mutation_witness :
    (handlePlaceTile demoRoundState 1 ⟨0, 6⟩ "left").1 = demoRoundState ∧
    (handlePlaceTile demoRoundState 4 ⟨0, 0⟩ "left").1 = demoRoundState ∧
    (handlePlaceTile demoPlacedState 1 ⟨0, 0⟩ "left").1 = demoPlacedState ∧
    (handlePassTurn demoPlacedState 1).1 = demoPlacedState := by
  refine ⟨?_, ?_, ?_, ?_⟩
  · exact (@C7_rejected_moves_no_mutation demoRoundState).1 1 0 ⟨0, 6⟩ "left"
      (by decide) (by decide)
  · exact (@C7_rejected_moves_no_mutation demoRoundState).2.1 4 3
      [⟨3, 6⟩, ⟨4, 4⟩, ⟨4, 5⟩, ⟨4, 6⟩, ⟨5, 5⟩, ⟨5, 6⟩, ⟨6, 6⟩] ⟨0, 0⟩ "left"
      (by decide) (by decide) (by decide)
  · exact ((@C7_rejected_moves_no_mutation demoPlacedState).2.2.1 1 0
      [⟨0, 0⟩, ⟨0, 1⟩, ⟨0, 2⟩, ⟨0, 3⟩, ⟨0, 4⟩, ⟨0, 5⟩, ⟨0, 6⟩] 0 ⟨0, 0⟩ "left"
      (by decide) (by decide) (by decide) (by decide) (by decide) (by decide)
      (by decide) (by decide) (by decide) (by decide)).1
  · exact (@C7_rejected_moves_no_mutation demoPlacedState).2.2.2 1 0
      (by decide) (by decide)

/-! ### Reclaiming a seat after a mid-round disconnect -/

/-- C8: while a round is active, a fresh connection identifying with the
trimmed display name of a disconnected seat rebinds that exact seat and is
immediately sent that seat's preserved in-progress hand (the hands function is
untouched, so no fresh deal happens); an identify whose name collides with a
currently connected seat is rejected with an error and binds nothing. -/
theorem C8_reconnect_reclaim {s : ServerState} :
    (∀ k name pool r, jsTake12 (jsTrim name) ≠ [] →
      (List.finRange 4).find? (fun p =>
        (s.jugadores p).isConnected &&
        nameTrimMatches (s.jugadores p) (jsTake12 (jsTrim name))) = none →
      (List.finRange 4).find? (fun p =>
        nameTrimMatches (s.jugadores p) (jsTake12 (jsTrim name)) &&
        !(s.jugadores p).isConnected && s.game.gameInitialized) = some r →
      ((handleSetPlayerName s k name pool).1.jugadores r =
        { s.jugadores r with socketId := some k, isConnected := true } ∧
       (handleSetPlayerName s k name pool).1.game.hands = s.game.hands ∧
       (handleSetPlayerName s k name pool).1.game.gameInitialized =
         s.game.gameInitialized ∧
       Event.playerHand k (s.game.hands r) ∈ (handleSetPlayerName s k name pool).2 ∧
       Event.playerAssigned k r ∈ (handleSetPlayerName s k name pool).2)) ∧
    (∀ k name pool q, jsTake12 (jsTrim name) ≠ [] →
      (List.finRange 4).find? (fun p =>
        (s.jugadores p).isConnected &&
        nameTrimMatches (s.jugadores p) (jsTake12 (jsTrim name))) = some q →
      (handleSetPlayerName s k name pool).1 = s ∧
      (handleSetPlayerName s k name pool).2 =
        [Event.gameError k ("Name \"" ++ String.mk (jsTake12 (jsTrim name)) ++
          "\" is already taken. Please choose another.")]) := by
  constructor
  · intro k name pool r hdn hfc hfr
    unfold handleSetPlayerName
    dsimp only
    rw [if_neg hdn, hfc]
    dsimp only
    rw [hfr]
    dsimp only [broadcastGameState]
    refine ⟨?_, rfl, rfl, ?_, ?_⟩
    · rw [Function.update_same]
    · simp
    · simp
  · intro k name pool q hdn hfc
    unfold handleSetPlayerName
    dsimp only
    rw [if_neg hdn, hfc]
    exact ⟨rfl, rfl⟩

/-- The demo round with the seat-0 socket dropped mid-round. -/
def c8State : ServerState := (disconnectCore demoRoundState 1).1

theorem C8_reconnect_reclaim_witness :
    ((handleSetPlayerName c8State 9 "Ana".toList generateDominoes).1.jugadores 0 =
      { c8State.jugadores 0 with socketId := some 9, isConnected := true } ∧
     (handleSetPlayerName c8State 9 "Ana".toList generateDominoes).1.game.hands =
       c8State.game.hands ∧
     Event.playerHand 9 (c8State.game.hands 0) ∈
       (handleSetPlayerName c8State 9 "Ana".toList generateDominoes).2) ∧
    ((handleSetPlayerName demoRoundState 9 "Bob".toList generateDominoes).1 =
      demoRoundState) := by
  constructor
  · obtain ⟨h1, h2, _, h4, _⟩ := (@C8_reconnect_reclaim c8State).1 9 "Ana".toList
      generateDominoes 0 (by decide) (by decide) (by decide)
    exact ⟨h1, h2, h4⟩
  · exact ((@C8_reconnect_reclaim demoRoundState).2 9 "Bob".toList
      generateDominoes 1 (by decide) (by decide)).1

/-! ### Match lifecycle: freeze at the target, reset on full readiness -/

/-- The demo round with the match already flagged over and three seats ready. -/
def c9ReadyState : ServerState := { demoRoundState with game := { demoRoundState.game with
  matchOver := true
  readyPlayers := {1, 2, 3} } }

/-- C9: when a settlement brings a team to the 50-point target, `matchOver` is
set, each winning seat's lifetime counter is bumped, and scores, hands and
`matchNumber` are frozen (no re-deal: `gameInitialized` goes false); a ready
acknowledgement below the all-4 gate changes none of scores, hands,
`matchNumber`, `matchOver`, `gameInitialized`; and once all four connected
seats have acknowledged with `matchOver` set, both scores are zeroed,
`matchNumber` is incremented, `isFirstRoundOfMatch` becomes true, the pairing
is recomputed from the new `matchNumber`, and the lifetime counters and
`lastWinner` survive the reset. -/
theorem C9_match_lifecycle {s : ServerState} :
    (∀ outcome g evs msg, endRoundTry s outcome = (g, evs, msg) →
      g.teamScores.teamA ≥ POINTS_TO_WIN_MATCH ∨
        g.teamScores.teamB ≥ POINTS_TO_WIN_MATCH →
      (endRound s outcome).1.game.matchOver = true ∧
      (endRound s outcome).1.game.gameInitialized = false ∧
      (endRound s outcome).1.game.teamScores = g.teamScores ∧
      (endRound s outcome).1.game.matchNumber = s.game.matchNumber ∧
      (endRound s outcome).1.game.hands = s.game.hands ∧
      (endRound s outcome).1.game.playerStats = fun p =>
        if (if g.teamScores.teamA > g.teamScores.teamB then s.game.teams.teamA
            else s.game.teams.teamB).contains p
        then s.game.playerStats p + 1 else s.game.playerStats p) ∧
    (∀ k p pool, jugadorNameOf s k = some p →
      ¬((insert p s.game.readyPlayers).card = connectedCount s ∧
        connectedCount s = 4) →
      (handleReady s k pool).1.game.teamScores = s.game.teamScores ∧
      (handleReady s k pool).1.game.hands = s.game.hands ∧
      (handleReady s k pool).1.game.matchNumber = s.game.matchNumber ∧
      (handleReady s k pool).1.game.matchOver = s.game.matchOver ∧
      (handleReady s k pool).1.game.gameInitialized = s.game.gameInitialized) ∧
    (∀ k p pool, jugadorNameOf s k = some p → s.game.matchOver = true →
      (insert p s.game.readyPlayers).card = connectedCount s →
      connectedCount s = 4 →
      (handleReady s k pool).1.game.teamScores = TeamScores.mk 0 0 ∧
      (handleReady s k pool).1.game.matchNumber = s.game.matchNumber + 1 ∧
      (handleReady s k pool).1.game.isFirstRoundOfMatch = true ∧
      (handleReady s k pool).1.game.teams = teamsFor (s.game.matchNumber + 1) ∧
      (handleReady s k pool).1.game.playerStats = s.game.playerStats ∧
      (handleReady s k pool).1.game.lastWinner = s.game.lastWinner ∧
      (handleReady s k pool).1.game.gameInitialized = true) := by
  refine ⟨?_, ?_, ?_⟩
  · intro outcome g evs msg htry hge
    have hshape := endRoundTry_shape s outcome
    rw [htry] at hshape
    obtain ⟨lw, ts, hg0⟩ := hshape
    have hg : g = { s.game with lastWinner := lw, teamScores := ts } := hg0
    unfold endRound
    rw [htry]
    dsimp only
    rw [if_pos hge]
    dsimp only [broadcastGameState]
    refine ⟨rfl, rfl, rfl, ?_, ?_, ?_⟩
    · rw [hg]
    · rw [hg]
    · rw [hg]
  · intro k p pool hjn hgate
    unfold handleReady
    rw [hjn]
    dsimp only [broadcastGameState]
    split
    · rename_i h
      exact absurd h hgate
    · exact ⟨rfl, rfl, rfl, rfl, rfl⟩
  · intro k p pool hjn hmo hcard hconn
    unfold handleReady
    rw [hjn]
    dsimp only [broadcastGameState]
    split
    · dsimp only
      exact ⟨rfl, rfl, rfl, rfl, rfl, rfl, rfl⟩
    · rename_i h
      exact absurd ⟨hcard, hconn⟩ h

theorem C9_match_lifecycle_witness :
    ((endRound demoRoundState (.winner 0)).1.game.matchOver = true ∧
     (endRound demoRoundState (.winner 0)).1.game.teamScores = ⟨116, 0⟩ ∧
     (endRound demoRoundState (.winner 0)).1.game.gameInitialized = false) ∧
    ((handleReady demoRoundState 1 generateDominoes).1.game.teamScores =
       demoRoundState.game.teamScores ∧
     (handleReady demoRoundState 1 generateDominoes).1.game.gameInitialized =
       demoRoundState.game.gameInitialized) ∧
    ((handleReady c9ReadyState 1 generateDominoes).1.game.teamScores =
       TeamScores.mk 0 0 ∧
     (handleReady c9ReadyState 1 generateDominoes).1.game.matchNumber = 2 ∧
     (handleReady c9ReadyState 1 generateDominoes).1.game.playerStats =
       c9ReadyState.game.playerStats) := by
  refine ⟨?_, ?_, ?_⟩
  · obtain ⟨h1, h2, h3, -, -, -⟩ := (@C9_match_lifecycle demoRoundState).1
      (.winner 0) (endRoundTry demoRoundState (.winner 0)).1
      (endRoundTry demoRoundState (.winner 0)).2.1
      (endRoundTry demoRoundState (.winner 0)).2.2 rfl (Or.inl (by decide))
    exact ⟨h1, h3.trans (by decide), h2⟩
  · obtain ⟨h1, -, -, -, h5⟩ := (@C9_match_lifecycle demoRoundState).2.1
      1 0 generateDominoes (by decide) (by decide)
    exact ⟨h1, h5⟩
  · obtain ⟨h1, h2, -, -, h5, -, -⟩ := (@C9_match_lifecycle c9ReadyState).2.2
      1 0 generateDominoes (by decide) (by decide) (by decide) (by decide)
    exact ⟨h1, h2, h5⟩

/-! ### Discipline of the ready set -/

/-- A lone socket identifies and acknowledges readiness before the other three
players arrive; the fourth identify then auto-starts the round. -/
def c10Cmds : List Cmd :=
  [.connect 1, .setPlayerName 1 "Ana".toList generateDominoes,
   .ready 1 generateDominoes,
   .connect 2, .setPlayerName 2 "Bob".toList generateDominoes,
   .connect 3, .setPlayerName 3 "Cia".toList generateDominoes,
   .connect 4, .setPlayerName 4 "Dan".toList generateDominoes]

def c10State : ServerState := runCmds initialServerState c10Cmds

theorem c10State_reachable : Reachable c10State := by
  have h0 : Reachable initialServerState := Reachable.init
  have h1 := Reachable.step (c := Cmd.connect 1) h0 (by show _ = none; decide)
  have h2 := Reachable.step (c := Cmd.setPlayerName 1 "Ana".toList generateDominoes) h1
    ⟨by decide, List.Perm.refl _⟩
  have h3 := Reachable.step (c := Cmd.ready 1 generateDominoes) h2
    ⟨by decide, List.Perm.refl _⟩
  have h4 := Reachable.step (c := Cmd.connect 2) h3 (by show _ = none; decide)
  have h5 := Reachable.step (c := Cmd.setPlayerName 2 "Bob".toList generateDominoes) h4
    ⟨by decide, List.Perm.refl _⟩
  have h6 := Reachable.step (c := Cmd.connect 3) h5 (by show _ = none; decide)
  have h7 := Reachable.step (c := Cmd.setPlayerName 3 "Cia".toList generateDominoes) h6
    ⟨by decide, List.Perm.refl _⟩
  have h8 := Reachable.step (c := Cmd.connect 4) h7 (by show _ = none; decide)
  have h9 := Reachable.step (c := Cmd.setPlayerName 4 "Dan".toList generateDominoes) h8
    ⟨by decide, List.Perm.refl _⟩
  exact h9

/-- C10 counterexample: the ready set is NOT cleared immediately before every
round initialization.  A seat that acknowledges readiness before the fourth
identify auto-starts the first round keeps its stale acknowledgement inside
the freshly initialized round: here the round is running yet seat 0 is still
marked ready. -/
theorem C10_counterexample :
    Reachable c10State ∧
    c10State.game.gameInitialized = true ∧
    0 ∈ c10State.game.readyPlayers ∧
    c10State.game.readyPlayers ≠ ∅ :=
  ⟨c10State_reachable, by decide, by decide, by decide⟩

/-- C10 (amended): in every reachable state `readyPlayers` holds only
currently connected seats; a `ready` command adds at most the acting socket's
own seat; a disconnect deletes the released seat from the set; every
settlement clears the set; and the all-4 gate in the ready handler fires only
when the ready set has grown to exactly the four connected seats.  (The
original claim's "cleared immediately before each new round is initialized"
is refuted by `C10_counterexample`: the auto-start after the fourth identify
initializes a round without clearing earlier acknowledgements.) -/
theorem C10_ready_set_discipline {s : ServerState} :
    (Reachable s → ∀ p ∈ s.game.readyPlayers, (s.jugadores p).isConnected = true) ∧
    (∀ k p pool, jugadorNameOf s k = some p →
      (handleReady s k pool).1.game.readyPlayers ⊆ insert p s.game.readyPlayers) ∧
    (∀ k t, (List.finRange 4).find? (fun q =>
        (s.jugadores q).socketId == some k) = some t →
      t ∉ (disconnectCore s k).1.game.readyPlayers) ∧
    (∀ outcome, (endRound s outcome).1.game.readyPlayers = ∅) ∧
    (∀ k p pool, jugadorNameOf s k = some p → s.game.gameInitialized = false →
      (handleReady s k pool).1.game.gameInitialized = true →
      (insert p s.game.readyPlayers).card = connectedCount s ∧
        connectedCount s = 4) := by
  refine ⟨?_, ?_, ?_, ?_, ?_⟩
  · intro hreach
    exact (reachable_inv hreach).readyConn
  · intro k p pool hjn
    unfold handleReady
    rw [hjn]
    dsimp only [broadcastGameState]
    split
    · exact Finset.empty_subset _
    · exact Finset.Subset.refl _
  · intro k t hft
    unfold disconnectCore
    dsimp only
    rw [hft]
    dsimp only
    split
    · exact Finset.not_mem_erase t _
    · split
      · exact Finset.not_mem_empty t
      · exact Finset.not_mem_erase t _
  · intro outcome
    unfold endRound
    dsimp only
    split <;> dsimp only [broadcastGameState] <;> rfl
  · intro k p pool hjn hginit hinit
    unfold handleReady at hinit
    rw [hjn] at hinit
    dsimp only [broadcastGameState] at hinit
    split at hinit
    · rename_i h
      exact h
    · dsimp only at hinit
      rw [hginit] at hinit
      exact absurd hinit (by decide)

/-- The demo seats with the round not yet dealt and three acknowledgements
already in, ready for the gate to fire. -/
def c10GateState : ServerState := { demoRoundState with game := { demoRoundState.game with
  gameInitialized := false
  readyPlayers := {1, 2, 3} } }

/-- The stale-but-initialized state also exercises the amended theorem: seat 0
is both ready and connected there. -/
theorem C10_ready_set_discipline_witness :
    ((c10State.jugadores 0).isConnected = true) ∧
    ((handleReady demoRoundState 1 generateDominoes).1.game.readyPlayers ⊆
      insert 0 demoRoundState.game.readyPlayers) ∧
    ((0 : PlayerName) ∉ (disconnectCore demoRoundState 1).1.game.readyPlayers) ∧
    ((endRound demoRoundState (.blocked)).1.game.readyPlayers = ∅) ∧
    ((insert (0 : PlayerName) c10GateState.game.readyPlayers).card =
      connectedCount c10GateState ∧ connectedCount c10GateState = 4) := by
  refine ⟨?_, ?_, ?_, ?_, ?_⟩
  · exact (@C10_ready_set_discipline c10State).1 c10State_reachable 0 (by decide)
  · exact (@C10_ready_set_discipline demoRoundState).2.1 1 0 generateDominoes (by decide)
  · exact (@C10_ready_set_discipline demoRoundState).2.2.1 1 0 (by decide)
  · exact (@C10_ready_set_discipline demoRoundState).2.2.2.1 .blocked
  · exact (@C10_ready_set_discipline c10GateState).2.2.2.2 1 0 generateDominoes
      (by decide) (by decide) (by decide)

end Domino4
